import Mathlib

/-!
# The journal chaincode of `start/chaincode_start.go`

A shallow embedding of the chaincode (`Init`, `Invoke`, `Query`, `Write`, `Read`,
`Init_journal`) together with the three collaborators it calls:

* the ledger stub (`GetState` / `PutState`), as an explicit state with a record of
  the calls made and a schedule of the calls that fail;
* `strconv.Atoi` / `strconv.Itoa`;
* `encoding/json` (`Unmarshal` into a `Journal` and into a `[]string`, `Marshal`
  of a `[]string`), as the scanner automaton of the Go library run over the input,
  followed by the decoding rules for the two target types. The library is modelled
  as in the Go releases of the chaincode's time (1.6, 1.7): no limit on nesting, a
  number for a string target ends the decoding, control characters other than
  newline, carriage return and tab are written as six-character escapes.

Conventions.  A Go `string` and a Go `[]byte` are both a Lean `String` (text in
UTF-8: every argument reaches the chaincode as a protobuf string, and every value
the chaincode writes is built from arguments); a nil `[]byte` is `""`.  A Go
`[]string` is an `Option (List String)`, `none` being the nil slice.  Console
output (`fmt.Println`) is not part of the model.
-/

namespace Chaincode

/-! ## encoding/json: the scanner -/

/-- A JSON value, as far as decoding into a struct of strings or a slice of strings
can observe it: the text of a number is not kept. Object members are kept in input
order, duplicates included, with their keys unquoted. -/
inductive JValue where
  | null
  | bool (b : Bool)
  | num
  | str (s : List Char)
  | arr (elems : List JValue)
  | obj (members : List (List Char × JValue))

/-- The step functions of the scanner (`stateBeginValue`, `stateInString`, ... in
`scanner.go`), as an enumeration. -/
inductive Step where
  | beginValueOrEmpty | beginValue | beginStringOrEmpty | beginString
  | endValue | endTop
  | inString | inStringEsc | inStringEscU | inStringEscU1 | inStringEscU12 | inStringEscU123
  | neg | s1 | s0 | dot | dot0 | e | eSign | e0
  | t | tr | tru | f | fa | fal | fals | n | nu | nul
  | error
  deriving DecidableEq

/-- An entry of the scanner's parse stack: `parseObjectKey`, `parseObjectValue` or
`parseArrayValue`, carrying what has been read of that object or array so far. -/
inductive Frame where
  | objectKey (members : List (List Char × JValue)) (key : List Char)
  | objectValue (members : List (List Char × JValue)) (key : List Char)
  | arrayValue (elems : List JValue)

/-- The scanner: its step function, its parse stack, the raw text of the string
literal being read, and the top-level value once complete. -/
structure Scanner where
  step : Step
  parseState : List Frame
  lit : List Char
  top : Option JValue

/-- `scanner.reset`. -/
def Scanner.reset : Scanner :=
  { step := Step.beginValue, parseState := [], lit := [], top := none }

/-- `scanner.error`: the error state is final. -/
def Scanner.error (s : Scanner) : Scanner := { s with step := Step.error }

/-- `isSpace`. -/
def isSpace (c : Char) : Bool := c = ' ' || c = '\t' || c = '\r' || c = '\n'

/-- Decimal digit. -/
def isDigit (c : Char) : Bool := decide ('0' ≤ c) && decide (c ≤ '9')

/-- Hexadecimal digit, either case. -/
def isHex (c : Char) : Bool :=
  (decide ('0' ≤ c) && decide (c ≤ '9')) || (decide ('a' ≤ c) && decide (c ≤ 'f'))
    || (decide ('A' ≤ c) && decide (c ≤ 'F'))

/-- Value of a hexadecimal digit. -/
def hexVal (c : Char) : Option Nat :=
  if '0' ≤ c ∧ c ≤ '9' then some (c.toNat - 48)
  else if 'a' ≤ c ∧ c ≤ 'f' then some (c.toNat - 97 + 10)
  else if 'A' ≤ c ∧ c ≤ 'F' then some (c.toNat - 65 + 10)
  else none

/-- `getu4` on the four characters after a backslash and a u. -/
def hex4 (a b c d : Char) : Option Nat :=
  match hexVal a, hexVal b, hexVal c, hexVal d with
  | some x, some y, some z, some w => some (((x * 16 + y) * 16 + z) * 16 + w)
  | _, _, _, _ => none

/-- `utf16.IsSurrogate`. -/
def isSurrogate (r : Nat) : Bool := decide (0xd800 ≤ r) && decide (r < 0xe000)

/-- `utf16.DecodeRune`: the code point of a valid surrogate pair. -/
def decodeRune (r1 r2 : Nat) : Option Nat :=
  if 0xd800 ≤ r1 ∧ r1 < 0xdc00 ∧ 0xdc00 ≤ r2 ∧ r2 < 0xe000 then
    some ((r1 - 0xd800) * 1024 + (r2 - 0xdc00) + 0x10000)
  else none

/-- The replacement character U+FFFD. -/
def replacementChar : Char := Char.ofNat 0xfffd

/-- The second half of a surrogate pair right after a first half `r`, if the text
goes on with a backslash-u escape that completes the pair: the code point, and the
text after the second escape. -/
def secondHalf (r : Nat) (rest : List Char) : Option (Nat × List Char) :=
  match rest with
  | b :: u :: a2 :: b2 :: c2 :: d2 :: rest2 =>
    if b = '\\' ∧ u = 'u' then
      match hex4 a2 b2 c2 d2 with
      | some r2 =>
        match decodeRune r r2 with
        | some x => some (x, rest2)
        | none => none
      | none => none
    else none
  | _ => none

/-- One escape of `unquoteBytes`, on the text after a backslash: the character it
stands for and how much of the text it takes, or `none` for a malformed escape. A
first half of a surrogate pair followed by an escape that completes the pair gives
the paired code point and takes the second escape too; any other surrogate gives
U+FFFD. -/
def escapeAt (rest : List Char) : Option (Char × Nat) :=
  match rest with
  | [] => none
  | e :: rest1 =>
    if e = 'u' then
      match rest1 with
      | a :: b :: c :: d :: rest2 =>
        match hex4 a b c d with
        | none => none
        | some r =>
          if isSurrogate r then
            match secondHalf r rest2 with
            | some (x, _) => some (Char.ofNat x, 11)
            | none => some (replacementChar, 5)
          else some (Char.ofNat r, 5)
      | _ => none
    else if e = '"' ∨ e = '\\' ∨ e = '/' ∨ e = '\'' then some (e, 1)
    else if e = 'b' then some (Char.ofNat 8, 1)
    else if e = 'f' then some (Char.ofNat 12, 1)
    else if e = 'n' then some ('\n', 1)
    else if e = 'r' then some ('\r', 1)
    else if e = 't' then some ('\t', 1)
    else none

/-- `unquoteBytes` on the text between the quotes of a string literal, after
dropping its first `skip` characters: resolves the escapes; fails on a raw quote or
control character and on a malformed escape (which the scanner has rejected
before). -/
def unquoteFrom : Nat → List Char → Option (List Char)
  | 0, [] => some []
  | _ + 1, [] => none
  | skip + 1, _ :: rest => unquoteFrom skip rest
  | 0, c :: rest =>
    if c = '\\' then
      match escapeAt rest with
      | some (x, taken) => (unquoteFrom taken rest).map (fun l => x :: l)
      | none => none
    else if c = '"' ∨ c.toNat < 0x20 then none
    else (unquoteFrom 0 rest).map (fun l => c :: l)

/-- `unquoteBytes` on the text between the quotes of a string literal. -/
def unquote (l : List Char) : Option (List Char) := unquoteFrom 0 l

/-- A value has been read completely: it becomes the top-level value, the pending
key of the object being read, the value of the pending key, or the next element of
the array being read. -/
def Scanner.emit (s : Scanner) (v : JValue) : Scanner :=
  match s.parseState with
  | [] => { s with top := some v }
  | Frame.objectKey ms key :: rest =>
    match v with
    | JValue.str k => { s with parseState := Frame.objectKey ms k :: rest }
    | _ => { s with parseState := Frame.objectKey ms key :: rest }
  | Frame.objectValue ms key :: rest =>
    { s with parseState := Frame.objectValue (ms ++ [(key, v)]) key :: rest }
  | Frame.arrayValue es :: rest =>
    { s with parseState := Frame.arrayValue (es ++ [v]) :: rest }

/-- The object or array a parse-stack entry stands for when it is closed. -/
def Frame.value : Frame → JValue
  | Frame.objectKey ms _ => JValue.obj ms
  | Frame.objectValue ms _ => JValue.obj ms
  | Frame.arrayValue es => JValue.arr es

/-- `scanner.popParseState`: the closed object or array is a complete value. -/
def Scanner.popParseState (s : Scanner) : Scanner :=
  match s.parseState with
  | [] => s.error
  | fr :: rest =>
    let s1 := Scanner.emit { s with parseState := rest } fr.value
    { s1 with step := if rest.isEmpty then Step.endTop else Step.endValue }

/-- `stateEndTop`. -/
def stateEndTop (s : Scanner) (c : Char) : Scanner :=
  if c ≠ ' ' ∧ c ≠ '\t' ∧ c ≠ '\r' ∧ c ≠ '\n' then s.error else s

/-- `stateEndValue`. -/
def stateEndValue (s : Scanner) (c : Char) : Scanner :=
  match s.parseState with
  | [] => stateEndTop { s with step := Step.endTop } c
  | fr :: rest =>
    if isSpace c then { s with step := Step.endValue }
    else
      match fr with
      | Frame.objectKey ms key =>
        if c = ':' then
          { s with parseState := Frame.objectValue ms key :: rest, step := Step.beginValue }
        else s.error
      | Frame.objectValue ms _ =>
        if c = ',' then
          { s with parseState := Frame.objectKey ms [] :: rest, step := Step.beginString }
        else if c = '}' then s.popParseState
        else s.error
      | Frame.arrayValue _ =>
        if c = ',' then { s with step := Step.beginValue }
        else if c = ']' then s.popParseState
        else s.error

/-- `stateBeginValue`. -/
def stateBeginValue (s : Scanner) (c : Char) : Scanner :=
  if isSpace c then s
  else if c = '{' then
    { s with step := Step.beginStringOrEmpty,
             parseState := Frame.objectKey [] [] :: s.parseState }
  else if c = '[' then
    { s with step := Step.beginValueOrEmpty, parseState := Frame.arrayValue [] :: s.parseState }
  else if c = '"' then { s with step := Step.inString, lit := [] }
  else if c = '-' then { s with step := Step.neg }
  else if c = '0' then { s with step := Step.s0 }
  else if c = 't' then { s with step := Step.t }
  else if c = 'f' then { s with step := Step.f }
  else if c = 'n' then { s with step := Step.n }
  else if '1' ≤ c ∧ c ≤ '9' then { s with step := Step.s1 }
  else s.error

/-- `stateBeginValueOrEmpty`. -/
def stateBeginValueOrEmpty (s : Scanner) (c : Char) : Scanner :=
  if isSpace c then s
  else if c = ']' then stateEndValue s c
  else stateBeginValue s c

/-- `stateBeginString`. -/
def stateBeginString (s : Scanner) (c : Char) : Scanner :=
  if isSpace c then s
  else if c = '"' then { s with step := Step.inString, lit := [] }
  else s.error

/-- `stateBeginStringOrEmpty`. -/
def stateBeginStringOrEmpty (s : Scanner) (c : Char) : Scanner :=
  if isSpace c then s
  else if c = '}' then
    match s.parseState with
    | Frame.objectKey ms key :: rest =>
      stateEndValue { s with parseState := Frame.objectValue ms key :: rest } c
    | _ => s.error
  else stateBeginString s c

/-- `stateInString`; the closing quote completes the literal. -/
def stateInString (s : Scanner) (c : Char) : Scanner :=
  if c = '"' then
    match unquote s.lit with
    | some text => Scanner.emit { s with step := Step.endValue } (JValue.str text)
    | none => s.error
  else if c = '\\' then { s with step := Step.inStringEsc, lit := s.lit ++ [c] }
  else if c.toNat < 0x20 then s.error
  else { s with lit := s.lit ++ [c] }

/-- `stateInStringEsc`. -/
def stateInStringEsc (s : Scanner) (c : Char) : Scanner :=
  if c = 'b' ∨ c = 'f' ∨ c = 'n' ∨ c = 'r' ∨ c = 't' ∨ c = '\\' ∨ c = '/' ∨ c = '"' then
    { s with step := Step.inString, lit := s.lit ++ [c] }
  else if c = 'u' then { s with step := Step.inStringEscU, lit := s.lit ++ [c] }
  else s.error

/-- `stateInStringEscU`, `...U1`, `...U12`, `...U123`: one hexadecimal digit each. -/
def stateInStringEscHex (next : Step) (s : Scanner) (c : Char) : Scanner :=
  if isHex c then { s with step := next, lit := s.lit ++ [c] } else s.error

/-- A number ends before `c`: it is a complete value, and `c` goes to
`stateEndValue`. -/
def endNumber (s : Scanner) (c : Char) : Scanner :=
  stateEndValue (s.emit JValue.num) c

/-- `state0`. -/
def state0 (s : Scanner) (c : Char) : Scanner :=
  if c = '.' then { s with step := Step.dot }
  else if c = 'e' ∨ c = 'E' then { s with step := Step.e }
  else endNumber s c

/-- `state1`. -/
def state1 (s : Scanner) (c : Char) : Scanner :=
  if isDigit c then { s with step := Step.s1 } else state0 s c

/-- `stateNeg`. -/
def stateNeg (s : Scanner) (c : Char) : Scanner :=
  if c = '0' then { s with step := Step.s0 }
  else if '1' ≤ c ∧ c ≤ '9' then { s with step := Step.s1 }
  else s.error

/-- `stateDot`. -/
def stateDot (s : Scanner) (c : Char) : Scanner :=
  if isDigit c then { s with step := Step.dot0 } else s.error

/-- `stateDot0`. -/
def stateDot0 (s : Scanner) (c : Char) : Scanner :=
  if isDigit c then s
  else if c = 'e' ∨ c = 'E' then { s with step := Step.e }
  else endNumber s c

/-- `stateESign`. -/
def stateESign (s : Scanner) (c : Char) : Scanner :=
  if isDigit c then { s with step := Step.e0 } else s.error

/-- `stateE`. -/
def stateE (s : Scanner) (c : Char) : Scanner :=
  if c = '+' ∨ c = '-' then { s with step := Step.eSign } else stateESign s c

/-- `stateE0`. -/
def stateE0 (s : Scanner) (c : Char) : Scanner :=
  if isDigit c then s else endNumber s c

/-- One letter of `true`, `false` or `null` other than the last. -/
def stateLetter (want : Char) (next : Step) (s : Scanner) (c : Char) : Scanner :=
  if c = want then { s with step := next } else s.error

/-- The last letter of `true`, `false` or `null`: the literal is complete. -/
def stateLastLetter (want : Char) (v : JValue) (s : Scanner) (c : Char) : Scanner :=
  if c = want then Scanner.emit { s with step := Step.endValue } v else s.error

/-- One call `s.step(s, c)`. -/
def Scanner.scan (s : Scanner) (c : Char) : Scanner :=
  match s.step with
  | Step.beginValueOrEmpty => stateBeginValueOrEmpty s c
  | Step.beginValue => stateBeginValue s c
  | Step.beginStringOrEmpty => stateBeginStringOrEmpty s c
  | Step.beginString => stateBeginString s c
  | Step.endValue => stateEndValue s c
  | Step.endTop => stateEndTop s c
  | Step.inString => stateInString s c
  | Step.inStringEsc => stateInStringEsc s c
  | Step.inStringEscU => stateInStringEscHex Step.inStringEscU1 s c
  | Step.inStringEscU1 => stateInStringEscHex Step.inStringEscU12 s c
  | Step.inStringEscU12 => stateInStringEscHex Step.inStringEscU123 s c
  | Step.inStringEscU123 => stateInStringEscHex Step.inString s c
  | Step.neg => stateNeg s c
  | Step.s1 => state1 s c
  | Step.s0 => state0 s c
  | Step.dot => stateDot s c
  | Step.dot0 => stateDot0 s c
  | Step.e => stateE s c
  | Step.eSign => stateESign s c
  | Step.e0 => stateE0 s c
  | Step.t => stateLetter 'r' Step.tr s c
  | Step.tr => stateLetter 'u' Step.tru s c
  | Step.tru => stateLastLetter 'e' (JValue.bool true) s c
  | Step.f => stateLetter 'a' Step.fa s c
  | Step.fa => stateLetter 'l' Step.fal s c
  | Step.fal => stateLetter 's' Step.fals s c
  | Step.fals => stateLastLetter 'e' (JValue.bool false) s c
  | Step.n => stateLetter 'u' Step.nu s c
  | Step.nu => stateLetter 'l' Step.nul s c
  | Step.nul => stateLastLetter 'l' JValue.null s c
  | Step.error => s

/-- `scanner.eof`: a space is fed to finish a top-level number; the input is
accepted when the scanner then rests after a top-level value. -/
def Scanner.eof (s : Scanner) : Scanner :=
  if s.step = Step.error then s
  else if s.step = Step.endTop then s
  else s.scan ' '

/-- `checkValid` and the value read: `none` is a syntax error. -/
def parseJSON (data : List Char) : Option JValue :=
  let s := (data.foldl Scanner.scan Scanner.reset).eof
  if s.step = Step.endTop then s.top else none

/-! ## encoding/json: decoding into a `Journal` and into a `[]string` -/

/-- The `Journal` struct of the chaincode. -/
structure Journal where
  Name : String
  CPR : String
  Status : String
  State : String
  Timestamp : String
  deriving DecidableEq

/-- `Journal{}`: every field the empty string. -/
def Journal.zero : Journal :=
  { Name := "", CPR := "", Status := "", State := "", Timestamp := "" }

/-- The fields of `Journal`, in declaration order. -/
inductive Field where
  | Name | CPR | Status | State | Timestamp
  deriving DecidableEq

/-- The JSON name of a field: its struct tag. -/
def Field.tag : Field → List Char
  | Field.Name => "name".data
  | Field.CPR => "cpr_nr".data
  | Field.Status => "status".data
  | Field.State => "state".data
  | Field.Timestamp => "timestamp".data

/-- `simpleLetterEqualFold`: `s` is all ASCII letters, none of them k or s. A
character of `t` outside ASCII never matches (its bytes are all 0x80 and above). -/
def simpleLetterEqualFold : List Char → List Char → Bool
  | [], [] => true
  | sb :: s, tb :: t =>
    decide (tb.toNat < 0x80) && decide (sb.toNat &&& 0xDF = tb.toNat &&& 0xDF)
      && simpleLetterEqualFold s t
  | _, _ => false

/-- `asciiEqualFold`: `s` is all ASCII with some punctuation, no k or s. -/
def asciiEqualFold : List Char → List Char → Bool
  | [], [] => true
  | sb :: s, tb :: t =>
    (if sb = tb then true
     else if ('a' ≤ sb ∧ sb ≤ 'z') ∨ ('A' ≤ sb ∧ sb ≤ 'Z') then
       decide (tb.toNat < 0x80) && decide (sb.toNat &&& 0xDF = tb.toNat &&& 0xDF)
     else false)
      && asciiEqualFold s t
  | _, _ => false

/-- `equalFoldRight`: `s` is all ASCII and has a k or an s, which also match the
Kelvin sign U+212A and the long s U+017F. -/
def equalFoldRight : List Char → List Char → Bool
  | [], [] => true
  | [], _ :: _ => false
  | _ :: _, [] => false
  | sb :: s, tb :: t =>
    (if tb.toNat < 0x80 then
       if sb = tb then true
       else if 65 ≤ (sb.toNat &&& 0xDF) ∧ (sb.toNat &&& 0xDF) ≤ 90 then
         decide (sb.toNat &&& 0xDF = tb.toNat &&& 0xDF)
       else false
     else if sb = 's' ∨ sb = 'S' then decide (tb = Char.ofNat 0x17f)
     else if sb = 'k' ∨ sb = 'K' then decide (tb = Char.ofNat 0x212a)
     else false)
      && equalFoldRight s t

/-- The fold function `foldFunc` picks for a field from its name. -/
def Field.equalFold : Field → List Char → List Char → Bool
  | Field.Name => simpleLetterEqualFold
  | Field.CPR => asciiEqualFold
  | Field.Status => equalFoldRight
  | Field.State => equalFoldRight
  | Field.Timestamp => equalFoldRight

/-- The loop of `decodeState.object` over the fields: the field whose name is the
key exactly, else the first field whose name equals the key under its fold. -/
def findFieldFrom : List Field → Option Field → List Char → Option Field
  | [], f, _ => f
  | ff :: rest, f, key =>
    if ff.tag = key then some ff
    else if f.isNone && ff.equalFold ff.tag key then findFieldFrom rest (some ff) key
    else findFieldFrom rest f key

/-- The field of `Journal` an object key selects, if any. -/
def findField (key : List Char) : Option Field :=
  findFieldFrom [Field.Name, Field.CPR, Field.Status, Field.State, Field.Timestamp] none key

/-- Assignment to one field. -/
def Journal.set (j : Journal) (f : Field) (v : String) : Journal :=
  match f with
  | Field.Name => { j with Name := v }
  | Field.CPR => { j with CPR := v }
  | Field.Status => { j with Status := v }
  | Field.State => { j with State := v }
  | Field.Timestamp => { j with Timestamp := v }

/-- The members of an object decoded into a `Journal`, in input order
(`decodeState.object`): a string under a key that selects a field is stored; `null`
changes nothing; a boolean, an object or an array under such a key is a type error
that is recorded (`saveError`) and skipped; a member under an unknown key is
skipped. A number under a key that selects a field ends the decoding there, with
what was stored so far: in the Go releases the chaincode was written for,
`literalStore` raises that one type error with `d.error` instead of recording it. -/
def storeMembers (j : Journal) : List (List Char × JValue) → Journal
  | [] => j
  | m :: rest =>
    match findField m.1, m.2 with
    | some f, JValue.str text => storeMembers (j.set f (String.mk text)) rest
    | some _, JValue.num => j
    | _, _ => storeMembers j rest

/-- The call `json.Unmarshal(data, &res)` for `res` a `Journal`, as the value of `res`
afterwards (the error is dropped, as the chaincode drops it): a syntax error leaves
`res` as it was, an object is stored member by member, `null` and any value of
another kind leave `res` as it was. -/
def jsonUnmarshalJournal (data : String) (res : Journal) : Journal :=
  match parseJSON data.data with
  | some (JValue.obj ms) => storeMembers res ms
  | _ => res

/-- The elements of an array decoded into a fresh `[]string`, in input order
(`decodeState.array`): the slice grows by one element, then the element is decoded
into it; a string is stored, anything else leaves the element at its zero value, and
a number ends the decoding there (see `storeMembers`). -/
def storeElems : List JValue → List String
  | [] => []
  | JValue.str text :: rest => String.mk text :: storeElems rest
  | JValue.num :: _ => [""]
  | _ :: rest => "" :: storeElems rest

/-- The call `json.Unmarshal(data, &v)` for `v` a nil `[]string`, as the value of `v`
afterwards (the error is dropped): an array gives a slice of its elements, anything
else (a syntax error, `null`, a value of another kind) leaves `v` nil. -/
def jsonUnmarshalStrings (data : String) : Option (List String) :=
  match parseJSON data.data with
  | some (JValue.arr es) => some (storeElems es)
  | _ => none

/-! ## encoding/json: `Marshal` of a `[]string` -/

/-- Lower-case hexadecimal digit. -/
def hexChar (n : Nat) : Char := "0123456789abcdef".data.getD n '0'

/-- The encoding of one character inside a string literal (`encodeState.string`
with HTML escaping, which `Marshal` always applies). -/
def encodeChar (c : Char) : List Char :=
  if c.toNat < 0x80 then
    if 0x20 ≤ c.toNat ∧ c ≠ '\\' ∧ c ≠ '"' ∧ c ≠ '<' ∧ c ≠ '>' ∧ c ≠ '&' then [c]
    else if c = '\\' ∨ c = '"' then ['\\', c]
    else if c = '\n' then ['\\', 'n']
    else if c = '\r' then ['\\', 'r']
    else if c = '\t' then ['\\', 't']
    else ['\\', 'u', '0', '0', hexChar (c.toNat >>> 4), hexChar (c.toNat &&& 0xF)]
  else if c.toNat = 0x2028 ∨ c.toNat = 0x2029 then
    ['\\', 'u', '2', '0', '2', hexChar (c.toNat &&& 0xF)]
  else [c]

/-- The text between the quotes of an encoded string. -/
def encodeChars : List Char → List Char
  | [] => []
  | c :: rest => encodeChar c ++ encodeChars rest

/-- A string as a JSON string literal. -/
def encodeString (s : String) : List Char := '"' :: encodeChars s.data ++ ['"']

/-- The elements of an array after the first, each behind its comma. -/
def encodeTail : List String → List Char
  | [] => []
  | s :: rest => ',' :: encodeString s ++ encodeTail rest

/-- A non-nil slice of strings as a JSON array, without any blank. -/
def encodeArray : List String → List Char
  | [] => ['[', ']']
  | s :: rest => '[' :: encodeString s ++ encodeTail rest ++ [']']

/-- The call `json.Marshal(v)` for `v` a `[]string` (it cannot fail): `null` for a nil
slice. -/
def jsonMarshalStrings : Option (List String) → String
  | none => "null"
  | some l => String.mk (encodeArray l)

/-- Go's `append(v, x)` on a `[]string`. -/
def appendString (v : Option (List String)) (x : String) : Option (List String) :=
  some (v.getD [] ++ [x])

/-! ## strconv -/

/-- The value of a non-empty run of decimal digits; `none` for the empty text and for
text with any other character. -/
def parseDigits : List Char → Option Nat → Option Nat
  | [], acc => acc
  | c :: rest, acc =>
    if '0' ≤ c ∧ c ≤ '9' then parseDigits rest (some (acc.getD 0 * 10 + (c.toNat - 48)))
    else none

/-- `strconv.IntSize` on the 64-bit platforms the chaincode is built for. -/
def intSize : Nat := 64

/-- `strconv.Atoi`: an optional sign and a non-empty run of decimal digits whose
value fits an `int`; `none` stands for either error (`ErrSyntax`, `ErrRange`), which
the chaincode does not tell apart. -/
def Atoi (s : String) : Option Int :=
  match s.data with
  | [] => none
  | c :: rest =>
    if c = '+' then
      match parseDigits rest none with
      | some un => if un ≥ 2 ^ (intSize - 1) then none else some (Int.ofNat un)
      | none => none
    else if c = '-' then
      match parseDigits rest none with
      | some un => if un > 2 ^ (intSize - 1) then none else some (- Int.ofNat un)
      | none => none
    else
      match parseDigits (c :: rest) none with
      | some un => if un ≥ 2 ^ (intSize - 1) then none else some (Int.ofNat un)
      | none => none

/-- The decimal digits of `n` in front of `acc`, most significant first. -/
def formatBits : Nat → Nat → List Char → List Char
  | 0, _, acc => acc
  | fuel + 1, n, acc =>
    if n < 10 then Char.ofNat (48 + n) :: acc
    else formatBits fuel (n / 10) (Char.ofNat (48 + n % 10) :: acc)

/-- `strconv.Itoa`: the canonical decimal form. -/
def Itoa (i : Int) : String :=
  match i with
  | Int.ofNat n => String.mk (formatBits (n + 1) n [])
  | Int.negSucc n => String.mk ('-' :: formatBits (n + 2) (n + 1) [])

/-! ## The ledger stub -/

deriving instance DecidableEq for Except

/-- A Go `error` as the chaincode can produce it: made on the spot by `errors.New`,
or received from the stub and passed on as it is. -/
inductive Err where
  | new (msg : String)
  | ledger (msg : String)
  deriving DecidableEq

/-- A call to the ledger. -/
inductive Op where
  | get (key : String)
  | put (key : String) (value : String)
  deriving DecidableEq

/-- Modelled from the spec: the ledger of its section 6, which the chaincode reaches
through `shim.ChaincodeStub` (the shim is not part of the sources). The ledger maps
a key to the bytes last written under it (a key that was never written has none);
`log` is the calls made so far, oldest first; `fault` tells which calls fail: the
call made after `n` others fails with `e` when `fault n = some e`. -/
structure Stub where
  state : String → Option String
  fault : Nat → Option String
  log : List Op

/-- Modelled from the spec: `Get(key) -> (bytes, error)`, which is `stub.GetState(key)`.
A failing call gives its error; any other call gives the bytes under the key, none
for a key without a value (not an error). The ledger is not changed. -/
def Stub.GetState (stub : Stub) (key : String) : Except Err String × Stub :=
  let stub1 := { stub with log := stub.log ++ [Op.get key] }
  match stub.fault stub.log.length with
  | some e => (Except.error (Err.ledger e), stub1)
  | none => (Except.ok ((stub.state key).getD ""), stub1)

/-- Modelled from the spec: `Put(key, value) -> error`, which is
`stub.PutState(key, value)`. A failing call gives its error and writes nothing; any
other call puts the value under the key, in place of what was there, for good
(atomic for its key, durable, no transaction across calls). -/
def Stub.PutState (stub : Stub) (key : String) (value : String) : Option Err × Stub :=
  let stub1 := { stub with log := stub.log ++ [Op.put key value] }
  match stub.fault stub.log.length with
  | some e => (some (Err.ledger e), stub1)
  | none => (none, { stub1 with state := fun k => if k = key then some value else stub.state k })

/-! ## The chaincode -/

/-- The key under which the list of all known journals is stored. -/
def journalIndexStr : String := "_journalindex"

set_option linter.unusedVariables false in
/-- `Init`: resets the test variable and the journal index. -/
def Init (stub : Stub) (function : String) (args : List String) : Except Err String × Stub :=
  if args.length ≠ 1 then
    (Except.error (Err.new "Incorrect number of arguments. Expecting 1"), stub)
  else
    match Atoi (args.getD 0 "") with
    | none => (Except.error (Err.new "Expecting integer value for asset holding"), stub)
    | some Aval =>
      match stub.PutState "abc" (Itoa Aval) with
      | (some err, stub1) => (Except.error err, stub1)
      | (none, stub1) =>
        let empty : Option (List String) := none
        let jsonAsBytes := jsonMarshalStrings empty
        match stub1.PutState journalIndexStr jsonAsBytes with
        | (some err, stub2) => (Except.error err, stub2)
        | (none, stub2) => (Except.ok "", stub2)

/-- `Write`: writes a variable into the chaincode state. -/
def Write (stub : Stub) (args : List String) : Except Err String × Stub :=
  if args.length ≠ 2 then
    (Except.error (Err.new
      "Incorrect number of arguments. Expecting 2. name of the variable and value to set"),
     stub)
  else
    let cpr := args.getD 0 ""
    let value := args.getD 1 ""
    match stub.PutState cpr value with
    | (some err, stub1) => (Except.error err, stub1)
    | (none, stub1) => (Except.ok "", stub1)

/-- `Read`: reads a variable from the chaincode state. -/
def Read (stub : Stub) (args : List String) : Except Err String × Stub :=
  if args.length ≠ 1 then
    (Except.error (Err.new "Incorrect number of arguments. Expecting name of the var to query"),
     stub)
  else
    let cpr := args.getD 0 ""
    match stub.GetState cpr with
    | (Except.error _, stub1) =>
      let jsonResp := "\x7b\"Error\":\"Failed to get state for " ++ cpr ++ "\"\x7d"
      (Except.error (Err.new jsonResp), stub1)
    | (Except.ok valAsbytes, stub1) => (Except.ok valAsbytes, stub1)

/-- The local `strJson` of `Init_journal`: the journal as JSON text, built by hand
from the five arguments as they are. -/
def strJson (name cpr status state timestamp : String) : String :=
  "\x7b\"name\": \"" ++ name ++ "\", \"cpr_nr\": \"" ++ cpr ++ "\", \"status\": " ++ status
    ++ ", \"state\": \"" ++ state ++ ", \"timestamp\": \"" ++ timestamp ++ "\"\x7d"

/-- `Init_journal`: creates a new journal and stores it into the chaincode state. The
error of the last `PutState` is assigned and never looked at. -/
def Init_journal (stub : Stub) (args : List String) : Except Err String × Stub :=
  if args.length ≠ 5 then
    (Except.error (Err.new "Incorrect number of arguments. Expecting 5"), stub)
  else if (args.getD 0 "").length ≤ 0 then
    (Except.error (Err.new "1st argument must be a non-empty string"), stub)
  else if (args.getD 1 "").length ≤ 0 then
    (Except.error (Err.new "2nd argument must be a non-empty string"), stub)
  else if (args.getD 2 "").length ≤ 0 then
    (Except.error (Err.new "3rd argument must be a non-empty string"), stub)
  else if (args.getD 3 "").length ≤ 0 then
    (Except.error (Err.new "4rd argument must be a non-empty string"), stub)
  else if (args.getD 4 "").length ≤ 0 then
    (Except.error (Err.new "5th argument must be a non-empty string"), stub)
  else
    let name := args.getD 0 ""
    let cpr := args.getD 1 ""
    let status := args.getD 2 ""
    let state := args.getD 3 ""
    let timestamp := args.getD 4 ""
    match stub.GetState cpr with
    | (Except.error _, stub1) => (Except.error (Err.new "Failed to get cpr-nr"), stub1)
    | (Except.ok journalAsBytes, stub1) =>
      let res := jsonUnmarshalJournal journalAsBytes Journal.zero
      if res.CPR = cpr then
        (Except.error (Err.new "This cpr-nr arleady exists"), stub1)
      else
        match stub1.PutState cpr (strJson name cpr status state timestamp) with
        | (some err, stub2) => (Except.error err, stub2)
        | (none, stub2) =>
          match stub2.GetState journalIndexStr with
          | (Except.error _, stub3) =>
            (Except.error (Err.new "Failed to get journal index"), stub3)
          | (Except.ok journalsAsBytes, stub3) =>
            let journalIndex := jsonUnmarshalStrings journalsAsBytes
            let journalIndex := appendString journalIndex cpr
            let jsonAsBytes := jsonMarshalStrings journalIndex
            let stub4 := (stub3.PutState journalIndexStr jsonAsBytes).2
            (Except.ok "", stub4)

/-- `Invoke`: the entry point to invoke a chaincode function. -/
def Invoke (stub : Stub) (function : String) (args : List String) : Except Err String × Stub :=
  if function = "init" then Init stub "init" args
  else if function = "write" then Write stub args
  else if function = "init_journal" then Init_journal stub args
  else (Except.error (Err.new "Received unknown function invocation"), stub)

/-- `Query`: the entry point for queries. -/
def Query (stub : Stub) (function : String) (args : List String) : Except Err String × Stub :=
  if function = "read" then Read stub args
  else (Except.error (Err.new "Received unknown function query"), stub)

/-! ## Vocabulary of the statements -/

/-- The call returned a nil error. -/
def succeeded (r : Except Err String × Stub) : Bool :=
  match r.1 with
  | Except.ok _ => true
  | Except.error _ => false

/-- The bytes a call returned: a call that returns an error returns nil bytes. -/
def bytesOf (r : Except Err String × Stub) : String :=
  match r.1 with
  | Except.ok v => v
  | Except.error _ => ""

/-- No call to the ledger fails. -/
def Stub.faultFree (stub : Stub) : Prop := ∀ n, stub.fault n = none

/-- The `cpr` argument of a call of `Init_journal`. -/
def cprOf (args : List String) : String := args.getD 1 ""

/-- The ledger after a sequence of `Init_journal` calls, one per argument list. -/
def runInitJournals (stub : Stub) : List (List String) → Stub
  | [] => stub
  | args :: rest => runInitJournals (Init_journal stub args).2 rest

/-- Every call of a sequence of `Init_journal` calls returned a nil error. -/
def allSucceed (stub : Stub) : List (List String) → Bool
  | [] => true
  | args :: rest => succeeded (Init_journal stub args) &&
      allSucceed (Init_journal stub args).2 rest

/-- The sequence of strings the bytes under the index key deserialize to. -/
def indexOf (stub : Stub) : List String :=
  (jsonUnmarshalStrings ((stub.state journalIndexStr).getD "")).getD []

/-- The key a call to the ledger is about. -/
def Op.key : Op → String
  | Op.get key => key
  | Op.put key _ => key

/-- The call to the ledger is a `PutState`. -/
def Op.isPut : Op → Bool
  | Op.get _ => false
  | Op.put _ _ => true

/-- The calls to the ledger made between two moments, oldest first: what the log
has gained. -/
def callsBetween (before after : Stub) : List Op := after.log.drop before.log.length

/-! ## Sets of scanner states -/

/-- The parse-stack entry is that of an object. -/
def Frame.isObject : Frame → Bool
  | Frame.objectKey _ _ => true
  | Frame.objectValue _ _ => true
  | Frame.arrayValue _ => false

/-- The outermost open value, at the bottom of the parse stack, is an object. -/
def bottomIsObject : List Frame → Bool
  | [] => false
  | fr :: rest => if rest.isEmpty then fr.isObject else bottomIsObject rest

/-- The scanner is reading, or has read, a text whose top-level value is an object
(or has met a syntax error). -/
def readsObject (s : Scanner) : Prop :=
  s.step = Step.error ∨ (bottomIsObject s.parseState = true ∧ s.step ≠ Step.endTop)
    ∨ (s.parseState = [] ∧ s.step = Step.endTop ∧ ∃ ms, s.top = some (JValue.obj ms))

/-- Inside a string literal and its escapes, or after a syntax error. -/
def inLiteral (s : Scanner) : Prop :=
  s.step = Step.inString ∨ s.step = Step.inStringEsc ∨ s.step = Step.inStringEscU
    ∨ s.step = Step.inStringEscU1 ∨ s.step = Step.inStringEscU12
    ∨ s.step = Step.inStringEscU123 ∨ s.step = Step.error

/-- At the text of a string literal, or after a syntax error. -/
def atString (s : Scanner) : Prop := s.step = Step.inString ∨ s.step = Step.error

/-- After a value, or after a syntax error. -/
def atEnd (s : Scanner) : Prop := s.step = Step.endValue ∨ s.step = Step.error

/-- Before a value, or after a syntax error. -/
def atBegin (s : Scanner) : Prop := s.step = Step.beginValue ∨ s.step = Step.error

/-! ## Concrete ledgers and calls -/

/-- An empty ledger on which no call fails. -/
def emptyStub : Stub := { state := fun _ => none, fault := fun _ => none, log := [] }

/-- An empty ledger on which exactly the call made after `n` others fails. -/
def failingAt (n : Nat) : Stub :=
  { state := fun _ => none, fault := fun i => if i = n then some "ledger down" else none,
    log := [] }

/-- The arguments of the scenario of the specification. -/
def aliceArgs : List String :=
  ["Alice", "1234567890", "open", "active", "2024-01-01T00:00:00Z"]

/-- The record `Init_journal` writes for `aliceArgs`. -/
def aliceRecord : String :=
  "\x7b\"name\": \"Alice\", \"cpr_nr\": \"1234567890\", \"status\": open, "
    ++ "\"state\": \"active, \"timestamp\": \"2024-01-01T00:00:00Z\"\x7d"

/-- The ledger after `Init(["100"])` on the empty ledger. -/
def bootStub : Stub := (Init emptyStub "init" ["100"]).2

/-- The ledger after `Init(["100"])` and the scenario's `Init_journal`. -/
def aliceStub : Stub := (Init_journal bootStub aliceArgs).2

/-- Arguments for a second journal. -/
def bobArgs : List String := ["Bob", "0987654321", "open", "active", "2024-01-02T00:00:00Z"]

/-- Arguments for a journal whose `cpr` is the key of the index. -/
def indexArgs : List String :=
  ["Eve", "_journalindex", "open", "active", "2024-01-03T00:00:00Z"]

/-- The ledger after `Init(["100"])` on an empty ledger where the sixth call to the
ledger fails: the two writes of `Init` are the first two calls, the last write of a
following `Init_journal` is the sixth. -/
def indexWriteFails : Stub := (Init (failingAt 5) "init" ["100"]).2

/-- Arguments whose `status` carries its own quotes and whose `state` ends in a
quote: the record built from them is valid JSON. -/
def quotedArgs : List String :=
  ["Alice", "1234567890", "\"open\"", "active\"", "2024-01-01T00:00:00Z"]

/-- The ledger after `Init(["100"])` and `Init_journal` with `quotedArgs`. -/
def quotedStub : Stub := (Init_journal bootStub quotedArgs).2

/-- The ledger `quotedStub` with its next call failing. -/
def quotedStubDown : Stub :=
  { quotedStub with fault := fun i => if i = 6 then some "ledger down" else none }

/-- The ledger after a `Write` that puts a journal whose `cpr_nr` is the index key
under the index key. -/
def indexHoldsJournal : Stub :=
  (Write emptyStub ["_journalindex", "\x7b\"cpr_nr\": \"_journalindex\"\x7d"]).2

/-! ## Basic facts -/

theorem length_one (args : List String) (h : args.length = 1) : ∃ a, args = [a] := by
  match args, h with
  | [a], _ => exact ⟨a, rfl⟩

theorem length_five (args : List String) (h : args.length = 5) :
    ∃ a b c d e, args = [a, b, c, d, e] := by
  match args, h with
  | [a, b, c, d, e], _ => exact ⟨a, b, c, d, e, rfl⟩

@[simp] theorem string_length_eq_zero (s : String) : s.length = 0 ↔ s = "" := by
  constructor
  · intro h
    cases s with
    | mk d =>
      have hd : d = [] := List.length_eq_zero.mp h
      subst hd
      rfl
  · rintro rfl
    rfl

/-! ## Round trip of a slice of strings through `Marshal` and `Unmarshal` -/

theorem hexChar_isHex : ∀ n, n < 16 → isHex (hexChar n) = true := by decide

theorem hex4_low : ∀ n, n < 128 →
    (n >>> 4 < 16 ∧ n &&& 0xF < 16) ∧
    hex4 '0' '0' (hexChar (n >>> 4)) (hexChar (n &&& 0xF)) = some n := by decide

theorem isHex_0 : isHex '0' = true := by decide

theorem isHex_2 : isHex '2' = true := by decide

theorem isHex_8 : isHex '8' = true := by decide

theorem isHex_9 : isHex '9' = true := by decide

theorem isSurrogate_low (n : Nat) (h : n < 0xd800) : isSurrogate n = false := by
  simp only [isSurrogate, Bool.and_eq_false_imp, decide_eq_true_eq, decide_eq_false_iff_not]
  omega

/-- The scanner, inside a string literal, reads the encoding of one character. -/
theorem scan_encodeChar (st : List Frame) (lit : List Char) (top : Option JValue) (c : Char) :
    (encodeChar c).foldl Scanner.scan ⟨Step.inString, st, lit, top⟩
      = ⟨Step.inString, st, lit ++ encodeChar c, top⟩ := by
  unfold encodeChar
  split_ifs with h1 h2 h3 h4 h5 h6 h7
  · obtain ⟨h20, hb, hq, -, -, -⟩ := h2
    simp [Scanner.scan, stateInString, hb, hq, Nat.not_lt.mpr h20]
  · rcases h3 with rfl | rfl <;>
      simp [Scanner.scan, stateInString, stateInStringEsc]
  · simp [Scanner.scan, stateInString, stateInStringEsc]
  · simp [Scanner.scan, stateInString, stateInStringEsc]
  · simp [Scanner.scan, stateInString, stateInStringEsc]
  · obtain ⟨⟨ha, hb⟩, -⟩ := hex4_low c.toNat h1
    simp [Scanner.scan, stateInString, stateInStringEsc, stateInStringEscHex,
      hexChar_isHex _ ha, hexChar_isHex _ hb, isHex_0]
  · have hb : hexChar (c.toNat &&& 0xF) = '8' ∨ hexChar (c.toNat &&& 0xF) = '9' := by
      rcases h7 with h | h <;> rw [h] <;> decide
    rcases hb with hb | hb <;>
      simp [Scanner.scan, stateInString, stateInStringEsc, stateInStringEscHex, hb, isHex_0,
        isHex_2, isHex_8, isHex_9]
  · have hq : c ≠ '"' := fun h => h1 (by rw [h]; decide)
    have hb : c ≠ '\\' := fun h => h1 (by rw [h]; decide)
    have h20 : ¬ c.toNat < 0x20 := fun h => h1 (by omega)
    simp [Scanner.scan, stateInString, hb, hq, h20]

/-- Unquoting undoes the encoding of one character. -/
theorem unquoteFrom_encodeChar (c : Char) (rest : List Char) :
    unquoteFrom 0 (encodeChar c ++ rest) = (unquoteFrom 0 rest).map (fun l => c :: l) := by
  unfold encodeChar
  split_ifs with h1 h2 h3 h4 h5 h6 h7
  · obtain ⟨h20, hb, hq, -, -, -⟩ := h2
    simp [unquoteFrom, hb, hq, Nat.not_lt.mpr h20]
  · rcases h3 with rfl | rfl <;> simp [unquoteFrom, escapeAt]
  · subst h4
    simp [unquoteFrom, escapeAt]
  · subst h5
    simp [unquoteFrom, escapeAt]
  · subst h6
    simp [unquoteFrom, escapeAt]
  · obtain ⟨-, hx⟩ := hex4_low c.toNat h1
    simp [unquoteFrom, escapeAt, hx, isSurrogate_low c.toNat (by omega)]
  · have hx : hex4 '2' '0' '2' (hexChar (c.toNat &&& 0xF)) = some c.toNat := by
      rcases h7 with h | h <;> rw [h] <;> decide
    have hs : isSurrogate c.toNat = false := by
      rcases h7 with h | h <;> rw [h] <;> decide
    simp [unquoteFrom, escapeAt, hx, hs]
  · have hq : c ≠ '"' := fun h => h1 (by rw [h]; decide)
    have hb : c ≠ '\\' := fun h => h1 (by rw [h]; decide)
    have h20 : ¬ c.toNat < 0x20 := fun h => h1 (by omega)
    simp [unquoteFrom, hb, hq, h20]

theorem scan_encodeChars (st : List Frame) (top : Option JValue) (cs : List Char) :
    ∀ lit : List Char, (encodeChars cs).foldl Scanner.scan ⟨Step.inString, st, lit, top⟩
      = ⟨Step.inString, st, lit ++ encodeChars cs, top⟩ := by
  induction cs with
  | nil => intro lit; simp [encodeChars]
  | cons c cs ih =>
    intro lit
    simp only [encodeChars, List.foldl_append, scan_encodeChar, ih, List.append_assoc]

theorem unquote_encodeChars (cs : List Char) : unquote (encodeChars cs) = some cs := by
  unfold unquote
  induction cs with
  | nil => simp [encodeChars, unquoteFrom]
  | cons c cs ih => simp [encodeChars, unquoteFrom_encodeChar, ih]

/-- The scanner reads an encoded string as one complete string value. -/
theorem scan_encodeString (s : Scanner) (str : String)
    (h : s.step = Step.beginValue ∨ s.step = Step.beginString
      ∨ s.step = Step.beginValueOrEmpty) :
    (encodeString str).foldl Scanner.scan s
      = Scanner.emit { s with step := Step.endValue, lit := encodeChars str.data }
          (JValue.str str.data) := by
  obtain ⟨step, st, lit, top⟩ := s
  simp only at h
  simp only [encodeString, List.foldl_cons, List.foldl_append, List.foldl_nil]
  have h0 : Scanner.scan ⟨step, st, lit, top⟩ '"' = ⟨Step.inString, st, [], top⟩ := by
    rcases h with h | h | h <;> subst h <;>
      simp [Scanner.scan, stateBeginValue, stateBeginString, stateBeginValueOrEmpty, isSpace]
  rw [h0, scan_encodeChars]
  simp [Scanner.scan, stateInString, unquote_encodeChars]

/-- The scanner, after an element of an array, reads the encoded elements that
follow. -/
theorem scan_encodeTail (st : List Frame) (top : Option JValue) (l : List String) :
    ∀ (es : List JValue) (lit : List Char), ∃ lit1,
      (encodeTail l).foldl Scanner.scan ⟨Step.endValue, Frame.arrayValue es :: st, lit, top⟩
        = ⟨Step.endValue,
           Frame.arrayValue (es ++ l.map (fun s => JValue.str s.data)) :: st, lit1, top⟩ := by
  induction l with
  | nil => intro es lit; exact ⟨lit, by simp [encodeTail]⟩
  | cons s rest ih =>
    intro es lit
    obtain ⟨lit1, h1⟩ := ih (es ++ [JValue.str s.data]) (encodeChars s.data)
    refine ⟨lit1, ?_⟩
    have hcomma : Scanner.scan ⟨Step.endValue, Frame.arrayValue es :: st, lit, top⟩ ','
        = ⟨Step.beginValue, Frame.arrayValue es :: st, lit, top⟩ := by
      simp [Scanner.scan, stateEndValue, isSpace]
    simp only [encodeTail, List.foldl_cons, List.foldl_append, hcomma]
    rw [scan_encodeString _ _ (Or.inl rfl)]
    simp only [Scanner.emit]
    rw [h1]
    simp

/-- The scanner accepts an encoded slice of strings and reads it as the array of
those strings. -/
theorem parseJSON_encodeArray (l : List String) :
    parseJSON (encodeArray l) = some (JValue.arr (l.map (fun s => JValue.str s.data))) := by
  have hopen : Scanner.scan Scanner.reset '['
      = ⟨Step.beginValueOrEmpty, [Frame.arrayValue []], [], none⟩ := by
    simp [Scanner.scan, Scanner.reset, stateBeginValue, isSpace]
  cases l with
  | nil =>
    simp only [parseJSON, encodeArray, List.foldl_cons, List.foldl_nil, hopen]
    simp [Scanner.scan, stateBeginValueOrEmpty, isSpace, stateEndValue, Scanner.popParseState,
      Scanner.emit, Frame.value, Scanner.eof]
  | cons s rest =>
    obtain ⟨lit1, h1⟩ := scan_encodeTail [] none rest [JValue.str s.data] (encodeChars s.data)
    simp only [parseJSON, encodeArray, List.foldl_cons, List.foldl_append, hopen, List.foldl_nil]
    rw [scan_encodeString _ _ (Or.inr (Or.inr rfl))]
    simp only [Scanner.emit, List.nil_append]
    rw [h1]
    simp [Scanner.scan, stateEndValue, isSpace, Scanner.popParseState, Scanner.emit,
      Frame.value, Scanner.eof]

theorem storeElems_strings (l : List String) :
    storeElems (l.map (fun s => JValue.str s.data)) = l := by
  induction l with
  | nil => rfl
  | cons s rest ih => simp only [List.map_cons, storeElems, ih]

/-- A slice of strings survives `Marshal` followed by `Unmarshal`. -/
theorem jsonUnmarshalStrings_jsonMarshalStrings (l : List String) :
    jsonUnmarshalStrings (jsonMarshalStrings (some l)) = some l := by
  simp only [jsonUnmarshalStrings, jsonMarshalStrings, parseJSON_encodeArray,
    storeElems_strings]

/-- The bytes `null` deserialize to the nil slice. -/
theorem jsonUnmarshalStrings_null : jsonUnmarshalStrings "null" = none := by decide

/-! ## The index under a sequence of `Init_journal` calls -/

/-- One successful call on a ledger without failures appends the `cpr` to the
index, when the `cpr` is not the index key itself. -/
theorem Init_journal_index_step (stub : Stub) (args : List String) (hff : stub.faultFree)
    (hok : succeeded (Init_journal stub args) = true) (hne : cprOf args ≠ journalIndexStr) :
    indexOf (Init_journal stub args).2 = indexOf stub ++ [cprOf args] ∧
    (Init_journal stub args).2.faultFree := by
  have hf : ∀ n, stub.fault n = none := hff
  by_cases hlen : args.length = 5
  · obtain ⟨a, b, c, d, e, rfl⟩ := length_five args hlen
    simp only [cprOf, List.getD_cons_succ, List.getD_cons_zero] at hne
    by_cases ha : a = ""
    · simp [Init_journal, ha, succeeded] at hok
    by_cases hb : b = ""
    · simp [Init_journal, ha, hb, succeeded] at hok
    by_cases hc : c = ""
    · simp [Init_journal, ha, hb, hc, succeeded] at hok
    by_cases hd : d = ""
    · simp [Init_journal, ha, hb, hc, hd, succeeded] at hok
    by_cases he : e = ""
    · simp [Init_journal, ha, hb, hc, hd, he, succeeded] at hok
    by_cases hdup : (jsonUnmarshalJournal ((stub.state b).getD "") Journal.zero).CPR = b
    · simp [Init_journal, ha, hb, hc, hd, he, Stub.GetState, hf, hdup, succeeded] at hok
    · have hne2 : ¬ journalIndexStr = b := fun h => hne h.symm
      simp [Init_journal, ha, hb, hc, hd, he, Stub.GetState, Stub.PutState, hf, hdup, indexOf,
        Stub.faultFree, cprOf, hne2, appendString, jsonUnmarshalStrings_jsonMarshalStrings]
  · simp [Init_journal, hlen, succeeded] at hok

/-- Successful calls on a ledger without failures append their `cpr` values to the
index in call order, when none of them is the index key. -/
theorem runInitJournals_index (calls : List (List String)) :
    ∀ stub : Stub, stub.faultFree → allSucceed stub calls = true →
      (∀ args ∈ calls, cprOf args ≠ journalIndexStr) →
      indexOf (runInitJournals stub calls) = indexOf stub ++ calls.map cprOf := by
  induction calls with
  | nil => intro stub _ _ _; simp [runInitJournals]
  | cons args rest ih =>
    intro stub hff hok hne
    simp only [allSucceed, Bool.and_eq_true] at hok
    obtain ⟨h1, h2⟩ := Init_journal_index_step stub args hff hok.1
      (hne args (List.mem_cons_self _ _))
    have h3 := ih (Init_journal stub args).2 h2 hok.2
      (fun a ha => hne a (List.mem_cons_of_mem _ ha))
    simp [runInitJournals, h3, h1]

/-- A successful `Init` on a ledger without failures leaves an index that
deserializes to no entry, on a ledger without failures. -/
theorem Init_index (stub : Stub) (function n : String) (hff : stub.faultFree)
    (hinit : succeeded (Init stub function [n]) = true) :
    indexOf (Init stub function [n]).2 = [] ∧ (Init stub function [n]).2.faultFree := by
  have hf : ∀ n, stub.fault n = none := hff
  rcases hA : Atoi n with _ | a
  · simp [Init, hA, succeeded] at hinit
  · simp [Init, hA, Stub.PutState, hf, indexOf, Stub.faultFree, jsonMarshalStrings,
      jsonUnmarshalStrings_null]

/-! ## The record `Init_journal` writes is not valid JSON -/

/-- The scanner's error state is final. -/
theorem scan_error (l : List Char) :
    ∀ s : Scanner, s.step = Step.error → (l.foldl Scanner.scan s).step = Step.error := by
  induction l with
  | nil => intro s h; exact h
  | cons c rest ih =>
    intro s h
    exact ih _ (by simp [Scanner.scan, h])

theorem emit_step (s : Scanner) (v : JValue) : (s.emit v).step = s.step := by
  unfold Scanner.emit
  split
  · rfl
  · split <;> rfl
  · rfl
  · rfl

/-- After a value, a quote or a letter is a syntax error. -/
theorem stateEndValue_error (s : Scanner) (c : Char) (hc : c = '"' ∨ c = 's' ∨ c = 't') :
    (stateEndValue s c).step = Step.error := by
  obtain ⟨step, st, lit, top⟩ := s
  rcases hc with rfl | rfl | rfl <;>
  · simp only [stateEndValue]
    split
    · simp [stateEndTop, Scanner.error]
    · rename_i fr rest
      cases fr <;> simp [isSpace, Scanner.error]

/-- A quote either opens a string, closes one, or is a syntax error. -/
theorem scan_quote (s : Scanner) :
    (s.scan '"').step = Step.error ∨ (s.scan '"').step = Step.inString
      ∨ (s.scan '"').step = Step.endValue := by
  obtain ⟨step, st, lit, top⟩ := s
  have hq := fun s => stateEndValue_error s '"' (Or.inl rfl)
  cases step <;>
    simp [Scanner.scan, stateBeginValueOrEmpty, stateBeginValue, stateBeginStringOrEmpty,
      stateBeginString, stateEndTop, stateInString, stateInStringEsc,
      stateInStringEscHex, stateNeg, state1, state0, stateDot, stateDot0, stateE, stateESign,
      stateE0, stateLetter, stateLastLetter, endNumber, isSpace, isDigit, isHex, Scanner.error, hq]
  case inString =>
    cases unquote lit <;> simp [emit_step]

/-- Inside a string literal only a quote leads out. -/
theorem scan_inLiteral (s : Scanner) (c : Char) (h : inLiteral s) (hc : c ≠ '"') :
    inLiteral (s.scan c) := by
  obtain ⟨step, st, lit, top⟩ := s
  simp only [inLiteral] at h
  rcases h with h | h | h | h | h | h | h <;> subst h <;>
    simp only [Scanner.scan, stateInString, stateInStringEsc, stateInStringEscHex, hc, if_false,
      Scanner.error, inLiteral] <;>
    (repeat' split) <;> simp

theorem foldl_inLiteral (l : List Char) (hl : '"' ∉ l) :
    ∀ s : Scanner, inLiteral s → inLiteral (l.foldl Scanner.scan s) := by
  induction l with
  | nil => intro s h; exact h
  | cons c rest ih =>
    intro s h
    simp only [List.mem_cons, not_or] at hl
    exact ih hl.2 _ (scan_inLiteral s c h (fun hc => hl.1 hc.symm))

/-- Inside a string literal a comma is text, inside an escape it is a syntax error. -/
theorem scan_comma (s : Scanner) (h : inLiteral s) :
    (s.scan ',').step = Step.inString ∨ (s.scan ',').step = Step.error := by
  obtain ⟨step, st, lit, top⟩ := s
  simp only [inLiteral] at h
  rcases h with h | h | h | h | h | h | h <;> subst h <;>
    simp [Scanner.scan, stateInString, stateInStringEsc, stateInStringEscHex, isHex,
      Scanner.error]


theorem atString_inLiteral (s : Scanner) (h : atString s) : inLiteral s := by
  rcases h with h | h
  · exact Or.inl h
  · exact Or.inr (Or.inr (Or.inr (Or.inr (Or.inr (Or.inr h)))))

/-- A letter or a blank inside a string literal is text. -/
theorem scan_atString (s : Scanner) (c : Char) (h : atString s)
    (hc : c = 's' ∨ c = 't' ∨ c = 'a' ∨ c = 'e' ∨ c = ' ') : atString (s.scan c) := by
  obtain ⟨step, st, lit, top⟩ := s
  simp only [atString] at h
  rcases h with h | h <;> subst h <;> rcases hc with rfl | rfl | rfl | rfl | rfl <;>
    simp [Scanner.scan, stateInString, atString]

theorem scan_of_endValue (x : Scanner) (c : Char) (h : x.step = Step.endValue) :
    x.scan c = stateEndValue x c := by
  unfold Scanner.scan
  rw [h]

/-- A quote at a string literal closes it, or is a syntax error. -/
theorem scan_closing (x : Scanner) (h : atString x) : atEnd (x.scan '"') := by
  obtain ⟨step, st, lit, top⟩ := x
  simp only [atString] at h
  rcases h with h | h <;> subst h
  · simp only [Scanner.scan, stateInString, if_true]
    cases unquote lit with
    | none => exact Or.inr rfl
    | some text => exact Or.inl (emit_step _ _)
  · exact Or.inr rfl

/-- A colon after a value leads to the next value, or is a syntax error. -/
theorem scan_colon (x : Scanner) (h : atEnd x) : atBegin (x.scan ':') := by
  obtain ⟨step, st, lit, top⟩ := x
  simp only [atEnd] at h
  rcases h with h | h <;> subst h
  · simp only [Scanner.scan, stateEndValue]
    cases st with
    | nil => simp [stateEndTop, Scanner.error, atBegin]
    | cons fr rest => cases fr <;> simp [isSpace, Scanner.error, atBegin]
  · exact Or.inr rfl

/-- A blank before a value is skipped. -/
theorem scan_blank (x : Scanner) (h : atBegin x) : atBegin (x.scan ' ') := by
  obtain ⟨step, st, lit, top⟩ := x
  simp only [atBegin] at h
  rcases h with h | h <;> subst h
  · simp [Scanner.scan, stateBeginValue, isSpace, atBegin]
  · exact Or.inr rfl

/-- A quote before a value opens a string literal. -/
theorem scan_opening (x : Scanner) (h : atBegin x) : atString (x.scan '"') := by
  obtain ⟨step, st, lit, top⟩ := x
  simp only [atBegin] at h
  rcases h with h | h <;> subst h
  · simp [Scanner.scan, stateBeginValue, isSpace, atString]
  · exact Or.inr rfl

/-- A letter after a value is a syntax error. -/
theorem scan_letter (x : Scanner) (h : atEnd x) (c : Char) (hc : c = '"' ∨ c = 's' ∨ c = 't') :
    (x.scan c).step = Step.error := by
  rcases h with h | h
  · rw [scan_of_endValue _ _ h]
    exact stateEndValue_error _ c hc
  · exact scan_error [c] x h

/-- The text `"state": "` leaves the scanner, whatever its state, at a string literal
or at a syntax error. -/
theorem scan_state_key (s : Scanner) :
    atString ("\"state\": \"".data.foldl Scanner.scan s) := by
  have hdata : "\"state\": \"".data = ['"', 's', 't', 'a', 't', 'e', '"', ':', ' ', '"'] := rfl
  rw [hdata]
  simp only [List.foldl_cons, List.foldl_nil]
  have hq := scan_quote s
  generalize s.scan '"' = x0 at hq ⊢
  have h1 : atString (((((x0.scan 's').scan 't').scan 'a').scan 't').scan 'e') := by
    rcases hq with h | h | h
    · exact Or.inr (scan_error ['s', 't', 'a', 't', 'e'] _ h)
    · have a1 := scan_atString _ 's' (Or.inl h) (by simp)
      have a2 := scan_atString _ 't' a1 (by simp)
      have a3 := scan_atString _ 'a' a2 (by simp)
      have a4 := scan_atString _ 't' a3 (by simp)
      exact scan_atString _ 'e' a4 (by simp)
    · exact Or.inr (scan_error ['t', 'a', 't', 'e'] _ (scan_letter _ (Or.inl h) 's' (by simp)))
  exact scan_opening _ (scan_blank _ (scan_colon _ (scan_closing _ h1)))

/-- The text `, "t` after a string literal or an escape is a syntax error. -/
theorem scan_after_state (x : Scanner) (h : inLiteral x) :
    (", \"t".data.foldl Scanner.scan x).step = Step.error := by
  have hdata : ", \"t".data = [',', ' ', '"', 't'] := rfl
  rw [hdata]
  simp only [List.foldl_cons, List.foldl_nil]
  have hc : atString (x.scan ',') := scan_comma x h
  exact scan_letter _ (scan_closing _ (scan_atString _ ' ' hc (by simp))) 't' (by simp)

/-- Unless the `state` argument holds a double quote, the text `Init_journal` builds
for a journal is not valid JSON, whatever the five arguments are. -/
theorem parseJSON_strJson (name cpr status state timestamp : String)
    (hq : '"' ∉ state.data) :
    parseJSON (strJson name cpr status state timestamp).data = none := by
  have hsplit : (strJson name cpr status state timestamp).data
      = ("\x7b\"name\": \"" ++ name ++ "\", \"cpr_nr\": \"" ++ cpr ++ "\", \"status\": "
            ++ status ++ ", ").data
        ++ ("\"state\": \"".data ++ (state.data ++ (", \"t".data
        ++ ("imestamp\": \"" ++ timestamp ++ "\"\x7d").data))) := by
    simp only [strJson, String.data_append, List.append_assoc]
    rfl
  have herr : ((strJson name cpr status state timestamp).data.foldl Scanner.scan
      Scanner.reset).step = Step.error := by
    rw [hsplit]
    simp only [List.foldl_append]
    apply scan_error
    apply scan_after_state
    apply foldl_inLiteral _ hq
    exact atString_inLiteral _ (scan_state_key _)
  simp [parseJSON, Scanner.eof, herr]

/-- Unless the `state` argument of the first call holds a double quote, a second
`Init_journal` for the same `cpr` is not rejected: on a ledger without failures,
after a successful first call for a `cpr` other than the index key, a call with the
same `cpr` and any non-empty other arguments succeeds again. -/
theorem Init_journal_again_succeeds (stub : Stub)
    (name cpr status state timestamp name2 status2 state2 timestamp2 : String)
    (hff : stub.faultFree) (hq : '"' ∉ state.data) (hkey : cpr ≠ journalIndexStr)
    (hname : name2 ≠ "") (hstatus : status2 ≠ "") (hstate : state2 ≠ "")
    (htimestamp : timestamp2 ≠ "")
    (hfirst : succeeded (Init_journal stub [name, cpr, status, state, timestamp]) = true) :
    (Init_journal (Init_journal stub [name, cpr, status, state, timestamp]).2
      [name2, cpr, status2, state2, timestamp2]).1 = Except.ok "" := by
  have hf : ∀ n, stub.fault n = none := hff
  have hrec : jsonUnmarshalJournal (strJson name cpr status state timestamp) Journal.zero
      = Journal.zero := by
    simp [jsonUnmarshalJournal, parseJSON_strJson name cpr status state timestamp hq]
  by_cases ha : name = ""
  · simp [Init_journal, ha, succeeded] at hfirst
  by_cases hb : cpr = ""
  · simp [Init_journal, ha, hb, succeeded] at hfirst
  by_cases hc : status = ""
  · simp [Init_journal, ha, hb, hc, succeeded] at hfirst
  by_cases hd : state = ""
  · simp [Init_journal, ha, hb, hc, hd, succeeded] at hfirst
  by_cases he : timestamp = ""
  · simp [Init_journal, ha, hb, hc, hd, he, succeeded] at hfirst
  by_cases hdup : (jsonUnmarshalJournal ((stub.state cpr).getD "") Journal.zero).CPR = cpr
  · simp [Init_journal, ha, hb, hc, hd, he, Stub.GetState, hf, hdup, succeeded] at hfirst
  · have hkey2 : ¬ journalIndexStr = cpr := fun h => hkey h.symm
    have hb2 : ¬ "" = cpr := fun h => hb h.symm
    have hz : Journal.zero.CPR = "" := rfl
    simp [Init_journal, ha, hb, hc, hd, he, Stub.GetState, Stub.PutState, hf, hdup, hkey, hkey2,
      hname, hstatus, hstate, htimestamp, hrec, hz, hb2]

/-- Whatever the last `PutState` of `Init_journal` returns, the call returns success
once the record is written and the index is read: on a failure of that last call the
record is written and the index keeps its value. -/
theorem Init_journal_last_error_unchecked (stub : Stub)
    (name cpr status state timestamp e : String)
    (hname : name ≠ "") (hcpr : cpr ≠ "") (hstatus : status ≠ "") (hstate : state ≠ "")
    (htimestamp : timestamp ≠ "")
    (hnew : (jsonUnmarshalJournal ((stub.state cpr).getD "") Journal.zero).CPR ≠ cpr)
    (h0 : stub.fault stub.log.length = none)
    (h1 : stub.fault (stub.log.length + 1) = none)
    (h2 : stub.fault (stub.log.length + 2) = none)
    (h3 : stub.fault (stub.log.length + 3) = some e)
    (hkey : cpr ≠ journalIndexStr) :
    (Init_journal stub [name, cpr, status, state, timestamp]).1 = Except.ok "" ∧
    (Init_journal stub [name, cpr, status, state, timestamp]).2.state cpr
      = some (strJson name cpr status state timestamp) ∧
    (Init_journal stub [name, cpr, status, state, timestamp]).2.state journalIndexStr
      = stub.state journalIndexStr := by
  have hkey2 : ¬ journalIndexStr = cpr := fun h => hkey h.symm
  simp [Init_journal, hname, hcpr, hstatus, hstate, htimestamp, Stub.GetState, Stub.PutState, h0,
    h1, h2, h3, hnew, hkey2]

/-! ## Calls to the ledger, and texts that do not decode -/

/-- The calls made since `stub` when the log has gained `ops`. -/
theorem callsBetween_append (stub : Stub) (st : String → Option String)
    (f : Nat → Option String) (ops : List Op) :
    callsBetween stub { state := st, fault := f, log := stub.log ++ ops } = ops := by
  simp [callsBetween]

/-- A syntax error leaves the `Journal` as it was. -/
theorem jsonUnmarshalJournal_of_invalid (data : String) (res : Journal)
    (h : parseJSON data.data = none) : jsonUnmarshalJournal data res = res := by
  simp [jsonUnmarshalJournal, h]

/-- A syntax error leaves the slice nil. -/
theorem jsonUnmarshalStrings_of_invalid (data : String)
    (h : parseJSON data.data = none) : jsonUnmarshalStrings data = none := by
  simp [jsonUnmarshalStrings, h]

/-- The empty text is a syntax error (`unexpected end of JSON input`). -/
theorem parseJSON_empty : parseJSON "".data = none :=
  Option.isNone_iff_eq_none.mp (by decide)

/-- A successful `Init_journal` whose last `PutState` does not fail, for a `cpr` other
than the index key, appends `cpr` to what the index deserializes to and changes no
key other than `cpr` and the index key. -/
theorem Init_journal_append_step (stub : Stub) (args : List String)
    (hok : succeeded (Init_journal stub args) = true)
    (hkey : cprOf args ≠ journalIndexStr)
    (h3 : stub.fault (stub.log.length + 3) = none) :
    indexOf (Init_journal stub args).2 = indexOf stub ++ [cprOf args] ∧
    ∀ k, k ≠ cprOf args → k ≠ journalIndexStr →
      (Init_journal stub args).2.state k = stub.state k := by
  by_cases hlen : args.length = 5
  · obtain ⟨a, b, c, d, e, rfl⟩ := length_five args hlen
    simp only [cprOf, List.getD_cons_succ, List.getD_cons_zero] at hkey ⊢
    by_cases ha : a = ""
    · simp [Init_journal, ha, succeeded] at hok
    by_cases hb : b = ""
    · simp [Init_journal, ha, hb, succeeded] at hok
    by_cases hc : c = ""
    · simp [Init_journal, ha, hb, hc, succeeded] at hok
    by_cases hd : d = ""
    · simp [Init_journal, ha, hb, hc, hd, succeeded] at hok
    by_cases he : e = ""
    · simp [Init_journal, ha, hb, hc, hd, he, succeeded] at hok
    rcases h0 : stub.fault stub.log.length with _ | e0
    swap
    · simp [Init_journal, ha, hb, hc, hd, he, Stub.GetState, h0, succeeded] at hok
    by_cases hdup : (jsonUnmarshalJournal ((stub.state b).getD "") Journal.zero).CPR = b
    · simp [Init_journal, ha, hb, hc, hd, he, Stub.GetState, h0, hdup, succeeded] at hok
    rcases h1 : stub.fault (stub.log.length + 1) with _ | e1
    swap
    · simp [Init_journal, ha, hb, hc, hd, he, Stub.GetState, Stub.PutState, h0, h1, hdup,
        succeeded] at hok
    rcases h2 : stub.fault (stub.log.length + 2) with _ | e2
    swap
    · simp [Init_journal, ha, hb, hc, hd, he, Stub.GetState, Stub.PutState, h0, h1, h2, hdup,
        succeeded] at hok
    have hkey2 : ¬ journalIndexStr = b := fun h => hkey h.symm
    constructor
    · simp [Init_journal, ha, hb, hc, hd, he, Stub.GetState, Stub.PutState, h0, h1, h2, h3, hdup,
        indexOf, hkey2, appendString, jsonUnmarshalStrings_jsonMarshalStrings]
    · intro k hk1 hk2
      simp [Init_journal, ha, hb, hc, hd, he, Stub.GetState, Stub.PutState, h0, h1, h2, h3, hdup,
        hk1, hk2]
  · simp [Init_journal, hlen, succeeded] at hok

/-! ## A text that opens with a brace is read as an object -/

theorem bottomIsObject_push (fr : Frame) (st : List Frame) (h : bottomIsObject st = true) :
    bottomIsObject (fr :: st) = true := by
  cases st with
  | nil => simp [bottomIsObject] at h
  | cons a rest => simpa [bottomIsObject] using h

theorem bottomIsObject_swap (fr fr2 : Frame) (st : List Frame)
    (h : bottomIsObject (fr :: st) = true) (hk : fr2.isObject = fr.isObject) :
    bottomIsObject (fr2 :: st) = true := by
  cases st with
  | nil => simpa [bottomIsObject, hk] using h
  | cons a rest => simpa [bottomIsObject] using h

theorem emit_bottomIsObject (s : Scanner) (v : JValue)
    (h : bottomIsObject s.parseState = true) :
    bottomIsObject (s.emit v).parseState = true := by
  obtain ⟨step, st, lit, top⟩ := s
  cases st with
  | nil => simp [bottomIsObject] at h
  | cons fr rest =>
    cases fr with
    | objectKey ms key =>
      cases v <;> exact bottomIsObject_swap _ _ _ h rfl
    | objectValue ms key => exact bottomIsObject_swap _ _ _ h rfl
    | arrayValue es => exact bottomIsObject_swap _ _ _ h rfl

theorem readsObject_of_bottom (s : Scanner) (h : bottomIsObject s.parseState = true)
    (hs : s.step ≠ Step.endTop) : readsObject s :=
  Or.inr (Or.inl ⟨h, hs⟩)

theorem readsObject_error (s : Scanner) : readsObject s.error := Or.inl rfl

theorem readsObject_emit (s : Scanner) (v : JValue) (h : bottomIsObject s.parseState = true)
    (hs : s.step ≠ Step.endTop) : readsObject (s.emit v) :=
  readsObject_of_bottom _ (emit_bottomIsObject s v h) (by rw [emit_step]; exact hs)

theorem readsObject_pop (s : Scanner) (h : bottomIsObject s.parseState = true) :
    readsObject s.popParseState := by
  obtain ⟨step, st, lit, top⟩ := s
  cases st with
  | nil => simp [bottomIsObject] at h
  | cons fr rest =>
    cases rest with
    | nil =>
      have hfr : fr.isObject = true := by simpa [bottomIsObject] using h
      refine Or.inr (Or.inr ?_)
      cases fr with
      | objectKey ms key => exact ⟨rfl, rfl, ms, rfl⟩
      | objectValue ms key => exact ⟨rfl, rfl, ms, rfl⟩
      | arrayValue es => simp [Frame.isObject] at hfr
    | cons a rest2 =>
      have hb : bottomIsObject (a :: rest2) = true := by simpa [bottomIsObject] using h
      refine readsObject_of_bottom _ ?_ ?_
      · simp only [Scanner.popParseState]
        exact emit_bottomIsObject ⟨step, a :: rest2, lit, top⟩ fr.value hb
      · simp [Scanner.popParseState]

theorem readsObject_stateEndValue (s : Scanner) (c : Char)
    (h : bottomIsObject s.parseState = true) : readsObject (stateEndValue s c) := by
  obtain ⟨step, st, lit, top⟩ := s
  cases st with
  | nil => simp [bottomIsObject] at h
  | cons fr rest =>
    cases fr with
    | objectKey ms key =>
      simp only [stateEndValue]
      split_ifs
      · exact readsObject_of_bottom _ h (by simp)
      · exact readsObject_of_bottom _ (bottomIsObject_swap _ _ _ h rfl) (by simp)
      · exact readsObject_error _
    | objectValue ms key =>
      simp only [stateEndValue]
      split_ifs
      · exact readsObject_of_bottom _ h (by simp)
      · exact readsObject_of_bottom _ (bottomIsObject_swap _ _ _ h rfl) (by simp)
      · exact readsObject_pop _ h
      · exact readsObject_error _
    | arrayValue es =>
      simp only [stateEndValue]
      split_ifs
      · exact readsObject_of_bottom _ h (by simp)
      · exact readsObject_of_bottom _ h (by simp)
      · exact readsObject_pop _ h
      · exact readsObject_error _

theorem readsObject_endNumber (s : Scanner) (c : Char)
    (h : bottomIsObject s.parseState = true) : readsObject (endNumber s c) :=
  readsObject_stateEndValue _ c (emit_bottomIsObject s _ h)

theorem readsObject_stateBeginValue (s : Scanner) (c : Char)
    (h : bottomIsObject s.parseState = true) (hs : s.step ≠ Step.endTop) :
    readsObject (stateBeginValue s c) := by
  unfold stateBeginValue
  split
  · exact readsObject_of_bottom s h hs
  split
  · exact readsObject_of_bottom _ (bottomIsObject_push _ _ h) (fun h => Step.noConfusion h)
  split
  · exact readsObject_of_bottom _ (bottomIsObject_push _ _ h) (fun h => Step.noConfusion h)
  iterate 7
    split
    · exact readsObject_of_bottom _ h (fun h => Step.noConfusion h)
  exact readsObject_error _

/-- The scanner keeps reading an object. -/
theorem readsObject_scan (s : Scanner) (c : Char) (h : readsObject s) :
    readsObject (s.scan c) := by
  rcases h with h | ⟨hb, hs⟩ | ⟨hst, hs, ms, ht⟩
  · left
    simp [Scanner.scan, h]
  · obtain ⟨step, st, lit, top⟩ := s
    simp only at hb hs
    cases step <;> simp only [Scanner.scan]
    case endTop => exact absurd rfl hs
    case error => exact Or.inl rfl
    case beginValue => exact readsObject_stateBeginValue _ c hb hs
    case beginValueOrEmpty =>
      simp only [stateBeginValueOrEmpty]
      split_ifs
      · exact readsObject_of_bottom _ hb hs
      · exact readsObject_stateEndValue _ c hb
      · exact readsObject_stateBeginValue _ c hb hs
    case endValue => exact readsObject_stateEndValue _ c hb
    case beginString =>
      simp only [stateBeginString]
      split_ifs
      · exact readsObject_of_bottom _ hb hs
      · exact readsObject_of_bottom _ hb (by simp)
      · exact readsObject_error _
    case beginStringOrEmpty =>
      simp only [stateBeginStringOrEmpty]
      split_ifs
      · exact readsObject_of_bottom _ hb hs
      · cases st with
        | nil => simp [bottomIsObject] at hb
        | cons fr rest =>
          cases fr with
          | objectKey ms key =>
            exact readsObject_stateEndValue _ c (bottomIsObject_swap _ _ _ hb rfl)
          | objectValue ms key => exact readsObject_error _
          | arrayValue es => exact readsObject_error _
      · simp only [stateBeginString]
        split_ifs
        · exact readsObject_of_bottom _ hb (by simp)
        · exact readsObject_error _
    case inString =>
      simp only [stateInString]
      split_ifs
      · cases unquote lit with
        | none => exact readsObject_error _
        | some text => exact readsObject_emit _ _ hb (by simp)
      · exact readsObject_of_bottom _ hb (by simp)
      · exact readsObject_error _
      · exact readsObject_of_bottom _ hb hs
    all_goals
      simp only [stateInStringEsc, stateInStringEscHex, stateNeg, state1, state0, stateDot,
        stateDot0, stateE, stateESign, stateE0, stateLetter, stateLastLetter]
      split_ifs <;>
        first
        | exact readsObject_error _
        | exact readsObject_endNumber _ c hb
        | exact readsObject_emit _ _ hb (fun h => Step.noConfusion h)
        | exact readsObject_of_bottom _ hb (fun h => Step.noConfusion h)
  · obtain ⟨step, st, lit, top⟩ := s
    simp only at hst hs ht
    subst hst hs ht
    simp only [Scanner.scan, stateEndTop]
    split_ifs
    · exact readsObject_error _
    · exact Or.inr (Or.inr ⟨rfl, rfl, ms, rfl⟩)

/-- The scanner keeps reading an object over a whole text. -/
theorem readsObject_foldl (l : List Char) : ∀ s : Scanner, readsObject s →
    readsObject (l.foldl Scanner.scan s) := by
  induction l with
  | nil => intro s h; exact h
  | cons c rest ih => intro s h; exact ih _ (readsObject_scan s c h)

/-- The end of the input keeps the invariant too. -/
theorem readsObject_eof (s : Scanner) (h : readsObject s) : readsObject s.eof := by
  unfold Scanner.eof
  split
  · exact h
  split
  · exact h
  exact readsObject_scan s ' ' h

/-- A text that opens with a brace is a syntax error or an object, never an array
and never `null`. -/
theorem parseJSON_brace (rest : List Char) :
    parseJSON ('{' :: rest) = none ∨ ∃ ms, parseJSON ('{' :: rest) = some (JValue.obj ms) := by
  have h0 : readsObject (Scanner.reset.scan '{') :=
    Or.inr (Or.inl ⟨by decide, by decide⟩)
  have h := readsObject_eof _ (readsObject_foldl rest _ h0)
  have hp : parseJSON ('{' :: rest) =
      if ((rest.foldl Scanner.scan (Scanner.reset.scan '{')).eof).step = Step.endTop
      then ((rest.foldl Scanner.scan (Scanner.reset.scan '{')).eof).top else none := rfl
  rw [hp]
  rcases h with h | ⟨_, hs⟩ | ⟨_, hs, ms, ht⟩
  · left; simp [h]
  · left; simp [hs]
  · right; exact ⟨ms, by simp [hs, ht]⟩


/-- The text `Init_journal` builds for a journal opens with a brace. -/
theorem strJson_data (name cpr status state timestamp : String) :
    ∃ rest, (strJson name cpr status state timestamp).data = '{' :: rest := by
  refine ⟨(strJson name cpr status state timestamp).data.tail, ?_⟩
  simp only [strJson, String.data_append, List.append_assoc]
  rfl

/-- The text `Init_journal` builds for a journal never decodes into a slice of
strings, whatever the five arguments are. -/
theorem jsonUnmarshalStrings_strJson (name cpr status state timestamp : String) :
    jsonUnmarshalStrings (strJson name cpr status state timestamp) = none := by
  obtain ⟨rest, h⟩ := strJson_data name cpr status state timestamp
  unfold jsonUnmarshalStrings
  rw [h]
  rcases parseJSON_brace rest with hp | ⟨ms, hp⟩ <;> rw [hp]

/-! ## Decimal forms -/

theorem digit_facts : ∀ d, d < 10 →
    Nat.digitChar d = Char.ofNat (48 + d) ∧
    ('0' ≤ Char.ofNat (48 + d) ∧ Char.ofNat (48 + d) ≤ '9') ∧
    (Char.ofNat (48 + d)).toNat - 48 = d ∧
    Char.ofNat (48 + d) ≠ '+' ∧ Char.ofNat (48 + d) ≠ '-' := by decide

/-- The digits `Itoa` writes are those of the decimal form of the library. -/
theorem formatBits_eq_toDigitsCore (fuel : Nat) :
    ∀ n acc, formatBits fuel n acc = Nat.toDigitsCore 10 fuel n acc := by
  induction fuel with
  | zero => intro n acc; rfl
  | succ fuel ih =>
    intro n acc
    simp only [formatBits, Nat.toDigitsCore]
    by_cases h : n < 10
    · have h0 : n / 10 = 0 := Nat.div_eq_of_lt h
      have hm : n % 10 = n := Nat.mod_eq_of_lt h
      simp [h, h0, hm, (digit_facts n h).1]
    · have h0 : n / 10 ≠ 0 := by omega
      have hm : n % 10 < 10 := Nat.mod_lt _ (by decide)
      simp [h, h0, (digit_facts _ hm).1, ih]

/-- `Itoa` gives the canonical decimal form: that of `toString` on the integers. -/
theorem Itoa_eq_toString (i : Int) : Itoa i = toString i := by
  cases i with
  | ofNat n =>
    show Itoa (Int.ofNat n) = Int.repr (Int.ofNat n)
    simp only [Itoa, Int.repr, Nat.repr, Nat.toDigits, List.asString, formatBits_eq_toDigitsCore]
  | negSucc n =>
    show Itoa (Int.negSucc n) = Int.repr (Int.negSucc n)
    simp only [Itoa, Int.repr, Nat.repr, Nat.toDigits, List.asString, formatBits_eq_toDigitsCore]
    rfl

/-- Reading the digits `Itoa` writes gives the number back. -/
theorem parseDigits_formatBits (fuel : Nat) :
    ∀ n, n < fuel → ∃ k, ∀ acc x,
      parseDigits (formatBits fuel n acc) x = parseDigits acc (some (x.getD 0 * 10 ^ k + n)) := by
  induction fuel with
  | zero => intro n h; omega
  | succ fuel ih =>
    intro n hn
    by_cases h : n < 10
    · refine ⟨1, fun acc x => ?_⟩
      obtain ⟨-, hr, hv, -, -⟩ := digit_facts n h
      simp [formatBits, h, parseDigits, hr, hv]
    · have hm : n % 10 < 10 := Nat.mod_lt _ (by decide)
      obtain ⟨k, hk⟩ := ih (n / 10) (by omega)
      refine ⟨k + 1, fun acc x => ?_⟩
      obtain ⟨-, hr, hv, -, -⟩ := digit_facts _ hm
      simp only [formatBits, h, if_false, hk, parseDigits, hr, and_self, if_true, hv,
        Option.getD_some]
      congr 2
      have := Nat.div_add_mod n 10
      rw [pow_succ]
      nlinarith [Nat.div_add_mod n 10]

/-- The decimal form `Itoa` writes for a natural number starts with a digit. -/
theorem formatBits_head (fuel : Nat) :
    ∀ n acc, ∃ d rest,
      d < 10 ∧ formatBits (fuel + 1) n acc = Char.ofNat (48 + d) :: rest := by
  induction fuel with
  | zero =>
    intro n acc
    by_cases h : n < 10
    · exact ⟨n, acc, h, by simp [formatBits, h]⟩
    · exact ⟨n % 10, acc, Nat.mod_lt _ (by decide), by simp [formatBits, h]⟩
  | succ fuel ih =>
    intro n acc
    by_cases h : n < 10
    · exact ⟨n, acc, h, by simp [formatBits, h]⟩
    · obtain ⟨d, rest, hd, hr⟩ := ih (n / 10) (Char.ofNat (48 + n % 10) :: acc)
      refine ⟨d, rest, hd, ?_⟩
      rw [← hr]
      conv_lhs => rw [formatBits]
      simp [h]

/-- What `Atoi` accepts fits an `int`. -/
theorem Atoi_range (s : String) (n : Int) (h : Atoi s = some n) :
    -(2 ^ 63 : Int) ≤ n ∧ n < 2 ^ 63 := by
  have key : ∀ (r : Option Nat),
      (match r with
        | some un => if un ≥ 2 ^ (intSize - 1) then none else some (Int.ofNat un)
        | none => none) = some n → -(2 ^ 63 : Int) ≤ n ∧ n < 2 ^ 63 := by
    intro r hr
    cases r with
    | none => simp at hr
    | some un =>
      simp [intSize] at hr
      obtain ⟨hb, rfl⟩ := hr
      norm_num
      constructor <;> omega
  have keyneg : ∀ (r : Option Nat),
      (match r with
        | some un => if un > 2 ^ (intSize - 1) then none else some (- Int.ofNat un)
        | none => none) = some n → -(2 ^ 63 : Int) ≤ n ∧ n < 2 ^ 63 := by
    intro r hr
    cases r with
    | none => simp at hr
    | some un =>
      simp [intSize] at hr
      obtain ⟨hb, rfl⟩ := hr
      norm_num
      constructor <;> omega
  unfold Atoi at h
  split at h
  · simp at h
  · split_ifs at h
    · exact key _ h
    · exact keyneg _ h
    · exact key _ h

/-- `Atoi` reads back what `Itoa` writes, for every value of an `int`. -/
theorem Atoi_Itoa (n : Int) (hlo : -(2 ^ 63 : Int) ≤ n) (hhi : n < 2 ^ 63) :
    Atoi (Itoa n) = some n := by
  cases n with
  | ofNat m =>
    have hm : m < 2 ^ 63 := by
      simp only [Int.ofNat_eq_coe] at hhi
      exact_mod_cast hhi
    obtain ⟨d, rest, hd, hr⟩ := formatBits_head m m []
    obtain ⟨k, hk⟩ := parseDigits_formatBits (m + 1) m (by omega)
    have hp := hk [] none
    obtain ⟨-, -, -, hplus, hminus⟩ := digit_facts d hd
    rw [hr] at hp
    simp only [Itoa, Atoi]
    rw [hr]
    simp only [hplus, hminus, if_false, hp]
    simp [parseDigits, intSize]
    omega
  | negSucc m =>
    have hm : m + 1 ≤ 2 ^ 63 := by
      have : Int.negSucc m = -((m : Int) + 1) := rfl
      rw [this] at hlo
      have h2 : ((m : Int) + 1) ≤ 2 ^ 63 := by linarith
      exact_mod_cast h2
    obtain ⟨k, hk⟩ := parseDigits_formatBits (m + 2) (m + 1) (by omega)
    have hp := hk [] none
    have hc : ¬ ('-' = '+') := by decide
    simp only [Itoa, Atoi, hc, if_false, if_true, hp]
    have : ¬ m + 1 > 2 ^ (64 - 1) := by omega
    simp only [parseDigits, Option.getD_none, Nat.zero_mul, Nat.zero_add, intSize, this,
      if_false]
    rfl

/-! ## The claims -/

set_option maxRecDepth 100000 in
/-- C1, evaluated on the code. After `Init(["100"])` on an empty ledger without
failures, `Init_journal` with the scenario's arguments succeeds; the record it
stored is not valid JSON (the hand-built text leaves `status` unquoted and never
closes the quote of `state`), so it deserializes to a `Journal` with an empty
`cpr_nr`; a second `Init_journal` with the same arguments therefore does not fail
with "This cpr-nr arleady exists" but succeeds, and lists the `cpr` a second time in
the index. -/
theorem duplicate_create_goes_undetected :
    emptyStub.faultFree ∧
    succeeded (Init emptyStub "init" ["100"]) = true ∧
    succeeded (Init_journal bootStub aliceArgs) = true ∧
    aliceStub.state "1234567890" = some aliceRecord ∧
    (parseJSON aliceRecord.data).isNone = true ∧
    (jsonUnmarshalJournal aliceRecord Journal.zero).CPR = "" ∧
    (Init_journal aliceStub aliceArgs).1 ≠ Except.error (Err.new "This cpr-nr arleady exists") ∧
    (Init_journal aliceStub aliceArgs).1 = Except.ok "" ∧
    aliceStub.state journalIndexStr = some "[\"1234567890\"]" ∧
    (Init_journal aliceStub aliceArgs).2.state journalIndexStr
      = some "[\"1234567890\",\"1234567890\"]" := by
  refine ⟨fun _ => rfl, ?_⟩
  decide

set_option maxRecDepth 100000 in
/-- C2 as stated fails: after `Init(["100"])` on an empty ledger without failures,
two successful `Init_journal` calls with the distinct non-empty `cpr` values
`1234567890` and `_journalindex` leave an index that deserializes to
`["_journalindex"]` alone, not to the two values in call order. -/
theorem index_loses_entries_on_index_key :
    emptyStub.faultFree ∧
    succeeded (Init emptyStub "init" ["100"]) = true ∧
    ([aliceArgs, indexArgs].map cprOf).Nodup ∧
    (∀ args ∈ [aliceArgs, indexArgs], cprOf args ≠ "") ∧
    allSucceed bootStub [aliceArgs, indexArgs] = true ∧
    indexOf (runInitJournals bootStub [aliceArgs, indexArgs]) = ["_journalindex"] ∧
    indexOf (runInitJournals bootStub [aliceArgs, indexArgs])
      ≠ [aliceArgs, indexArgs].map cprOf := by
  refine ⟨fun _ => rfl, ?_⟩
  decide

/-- C2, amended. For every list of `Init_journal` calls whose `cpr` values are
pairwise distinct, non-empty and different from the index key `_journalindex`:
starting from the ledger left by a successful `Init` on a ledger whose calls never
fail, if all the calls return success then the value under `_journalindex`
afterwards deserializes to exactly the `cpr` values of the calls, in call order.
(Distinctness and non-emptiness are not needed by the proof.) -/
theorem index_lists_cprs_in_call_order (stub : Stub) (function n : String)
    (calls : List (List String))
    (hff : stub.faultFree)
    (hinit : succeeded (Init stub function [n]) = true)
    (_hdistinct : (calls.map cprOf).Nodup)
    (_hnonempty : ∀ args ∈ calls, cprOf args ≠ "")
    (hreserved : ∀ args ∈ calls, cprOf args ≠ journalIndexStr)
    (hok : allSucceed (Init stub function [n]).2 calls = true) :
    indexOf (runInitJournals (Init stub function [n]).2 calls) = calls.map cprOf := by
  obtain ⟨h0, hff1⟩ := Init_index stub function n hff hinit
  rw [runInitJournals_index calls _ hff1 hok hreserved, h0, List.nil_append]

set_option maxRecDepth 100000 in
/-- C2, amended, at the calls for `1234567890` and `0987654321` after
`Init(["100"])` on the empty ledger. -/
theorem index_lists_cprs_in_call_order_witness :
    indexOf (runInitJournals (Init emptyStub "init" ["100"]).2 [aliceArgs, bobArgs])
      = ["1234567890", "0987654321"] :=
  index_lists_cprs_in_call_order emptyStub "init" "100" [aliceArgs, bobArgs]
    (fun _ => rfl) (by decide) (by decide) (by decide) (by decide) (by decide)

/-- C3. For every ledger and every argument list whose length is not 5, or is 5
with an empty string among the five, `Init_journal` fails with one of its six
argument errors and makes no call to the ledger: the stub, with the ledger and the
record of calls, is the same after the call as before. -/
theorem Init_journal_rejects_bad_arguments (stub : Stub) (args : List String)
    (h : args.length ≠ 5 ∨ (args.length = 5 ∧ ∃ a ∈ args, a = "")) :
    (Init_journal stub args).2 = stub ∧
    ∃ msg ∈ ["Incorrect number of arguments. Expecting 5",
             "1st argument must be a non-empty string",
             "2nd argument must be a non-empty string",
             "3rd argument must be a non-empty string",
             "4rd argument must be a non-empty string",
             "5th argument must be a non-empty string"],
      (Init_journal stub args).1 = Except.error (Err.new msg) := by
  by_cases hlen : args.length = 5
  · obtain ⟨a, b, c, d, e, rfl⟩ := length_five args hlen
    have hex : a = "" ∨ b = "" ∨ c = "" ∨ d = "" ∨ e = "" := by
      rcases h with h | ⟨_, x, hx, rfl⟩
      · exact absurd hlen h
      · simp only [List.mem_cons, List.mem_singleton, List.not_mem_nil, or_false] at hx
        rcases hx with h | h | h | h | h <;> simp [← h]
    by_cases ha : a = ""
    · simp [Init_journal, ha]
    by_cases hb : b = ""
    · simp [Init_journal, ha, hb]
    by_cases hc : c = ""
    · simp [Init_journal, ha, hb, hc]
    by_cases hd : d = ""
    · simp [Init_journal, ha, hb, hc, hd]
    by_cases he : e = ""
    · simp [Init_journal, ha, hb, hc, hd, he]
    · simp [ha, hb, hc, hd, he] at hex
  · simp [Init_journal, hlen]

/-- C3 at the scenario of the specification: four arguments, on a ledger that holds
a journal and its index entry. -/
theorem Init_journal_rejects_bad_arguments_witness :
    (Init_journal aliceStub ["Alice", "1234567890", "open", "active"]).2 = aliceStub ∧
    ∃ msg ∈ ["Incorrect number of arguments. Expecting 5",
             "1st argument must be a non-empty string",
             "2nd argument must be a non-empty string",
             "3rd argument must be a non-empty string",
             "4rd argument must be a non-empty string",
             "5th argument must be a non-empty string"],
      (Init_journal aliceStub ["Alice", "1234567890", "open", "active"]).1
        = Except.error (Err.new msg) :=
  Init_journal_rejects_bad_arguments aliceStub ["Alice", "1234567890", "open", "active"]
    (Or.inl (by decide))

set_option maxRecDepth 100000 in
/-- C4 as stated fails: on an empty ledger where the second call to the ledger
fails, `Write(["k", "v"])` succeeds and the `Read(["k"])` right after it fails. -/
theorem Write_then_Read_can_fail :
    succeeded (Write (failingAt 1) ["k", "v"]) = true ∧
    succeeded (Read (Write (failingAt 1) ["k", "v"]).2 ["k"]) = false ∧
    (Read (Write (failingAt 1) ["k", "v"]).2 ["k"]).1
      = Except.error (Err.new "\x7b\"Error\":\"Failed to get state for k\"\x7d") := by
  decide

/-- C4, amended. For every ledger, key `k` and value `v`: if `Write([k, v])`
succeeds and the ledger read of the `Read([k])` right after it does not fail, then
that `Read` succeeds and returns exactly `v`. -/
theorem Write_then_Read (stub : Stub) (k v : String)
    (hw : succeeded (Write stub [k, v]) = true)
    (hr : (Write stub [k, v]).2.fault (Write stub [k, v]).2.log.length = none) :
    (Read (Write stub [k, v]).2 [k]).1 = Except.ok v := by
  rcases h0 : stub.fault stub.log.length with _ | e0
  · simp [Write, Stub.PutState, h0] at hr
    simp [Write, Read, Stub.PutState, Stub.GetState, h0, hr]
  · simp [Write, Stub.PutState, h0, succeeded] at hw

set_option maxRecDepth 100000 in
/-- C4, amended, at a write over the key of an existing journal. -/
theorem Write_then_Read_witness :
    (Read (Write aliceStub ["1234567890", "gone"]).2 ["1234567890"]).1 = Except.ok "gone" :=
  Write_then_Read aliceStub "1234567890" "gone" (by decide) (by decide)

/-- C5. For every prior ledger and every argument `n`: after a successful
`Init([n])`, the bytes `Read(["_journalindex"])` returns deserialize to the empty
sequence of strings; when the ledger read does not fail they are the bytes `null`
that `Init` stored. -/
theorem Init_then_Read_index (stub : Stub) (function n : String)
    (hinit : succeeded (Init stub function [n]) = true) :
    ((Init stub function [n]).2.fault (Init stub function [n]).2.log.length = none →
      (Read (Init stub function [n]).2 [journalIndexStr]).1 = Except.ok "null") ∧
    (jsonUnmarshalStrings (bytesOf (Read (Init stub function [n]).2 [journalIndexStr]))).getD []
      = [] := by
  rcases hA : Atoi n with _ | a
  · simp [Init, hA, succeeded] at hinit
  · rcases h0 : stub.fault stub.log.length with _ | e0
    · rcases h1 : stub.fault (stub.log.length + 1) with _ | e1
      · rcases h2 : stub.fault (stub.log.length + 1 + 1) with _ | e2
        · simp [Init, hA, Stub.PutState, h0, h1, Read, Stub.GetState, h2, bytesOf,
            jsonMarshalStrings]
          decide
        · simp [Init, hA, Stub.PutState, h0, h1, Read, Stub.GetState, h2, bytesOf]
          decide
      · simp [Init, hA, Stub.PutState, h0, h1, succeeded] at hinit
    · simp [Init, hA, Stub.PutState, h0, succeeded] at hinit

set_option maxRecDepth 100000 in
/-- C5 at `Init(["-7"])` on a ledger whose index lists a journal. -/
theorem Init_then_Read_index_witness :
    ((Init aliceStub "init" ["-7"]).2.fault (Init aliceStub "init" ["-7"]).2.log.length = none →
      (Read (Init aliceStub "init" ["-7"]).2 [journalIndexStr]).1 = Except.ok "null") ∧
    (jsonUnmarshalStrings
        (bytesOf (Read (Init aliceStub "init" ["-7"]).2 [journalIndexStr]))).getD []
      = [] :=
  Init_then_Read_index aliceStub "init" "-7" (by decide)

set_option maxRecDepth 100000 in
/-- C6, evaluated on the code. In the scenario of the specification (`Init(["100"])`,
then `Init_journal` for Alice, both successful, on a ledger without failures) the
index deserializes to `["1234567890"]`, but the record read back at `1234567890` is
not valid JSON and deserializes to a `Journal` whose `cpr_nr` is empty, not
`1234567890`. -/
theorem scenario_record_does_not_deserialize :
    emptyStub.faultFree ∧
    succeeded (Init emptyStub "init" ["100"]) = true ∧
    succeeded (Init_journal bootStub aliceArgs) = true ∧
    indexOf aliceStub = ["1234567890"] ∧
    (Read aliceStub ["1234567890"]).1 = Except.ok aliceRecord ∧
    (parseJSON (bytesOf (Read aliceStub ["1234567890"])).data).isNone = true ∧
    (jsonUnmarshalJournal (bytesOf (Read aliceStub ["1234567890"])) Journal.zero).CPR = "" ∧
    (jsonUnmarshalJournal (bytesOf (Read aliceStub ["1234567890"])) Journal.zero).CPR
      ≠ "1234567890" := by
  refine ⟨fun _ => rfl, ?_⟩
  decide

/-- C7. `Init` fails with one of its two argument errors exactly when the argument
list does not have exactly one element or that element is not accepted by `Atoi` (a
decimal integer in the range of `int`); and whenever the arguments are such, `Init`
makes no call to the ledger: the stub is the same after the call as before. -/
theorem Init_invalid_argument_iff (stub : Stub) (function : String) (args : List String) :
    (((Init stub function args).1
          = Except.error (Err.new "Incorrect number of arguments. Expecting 1") ∨
        (Init stub function args).1
          = Except.error (Err.new "Expecting integer value for asset holding"))
      ↔ (args.length ≠ 1 ∨ Atoi (args.getD 0 "") = none)) ∧
    ((args.length ≠ 1 ∨ Atoi (args.getD 0 "") = none) → (Init stub function args).2 = stub) := by
  by_cases hlen : args.length = 1
  · obtain ⟨a, rfl⟩ := length_one args hlen
    rcases hA : Atoi a with _ | n
    · simp [Init, hA]
    · rcases h0 : stub.fault stub.log.length with _ | e0
      · rcases h1 : stub.fault (stub.log.length + 1) with _ | e1
        · simp [Init, hA, Stub.PutState, h0, h1]
        · simp [Init, hA, Stub.PutState, h0, h1]
      · simp [Init, hA, Stub.PutState, h0]
  · simp [Init, hlen]

set_option maxRecDepth 100000 in
/-- C8 as stated fails: on the empty ledger, where no call fails, the key `nobody`
is absent and `Read(["nobody"])` does not fail: it returns no bytes. -/
theorem Read_absent_key_succeeds :
    emptyStub.state "nobody" = none ∧ emptyStub.fault emptyStub.log.length = none ∧
    (Read emptyStub ["nobody"]).1 = Except.ok "" ∧
    (Read emptyStub ["nobody"]).1
      ≠ Except.error (Err.new "\x7b\"Error\":\"Failed to get state for nobody\"\x7d") := by
  decide

/-- C8, amended. `Read` with an argument count other than 1 fails without a call to
the ledger. `Read([key])` fails, with an error whose text holds the key, whenever
the ledger read fails; when the ledger read does not fail it returns the bytes stored
under the key unchanged, and no bytes for a key that is absent. It never changes the
ledger. -/
theorem Read_result (stub : Stub) (args : List String) (key : String) :
    (args.length ≠ 1 →
      Read stub args
        = (Except.error
            (Err.new "Incorrect number of arguments. Expecting name of the var to query"),
           stub)) ∧
    (∀ e, stub.fault stub.log.length = some e →
      (Read stub [key]).1
        = Except.error
            (Err.new ("\x7b\"Error\":\"Failed to get state for " ++ key ++ "\"\x7d"))) ∧
    (stub.fault stub.log.length = none →
      (Read stub [key]).1 = Except.ok ((stub.state key).getD "")) ∧
    (Read stub [key]).2.state = stub.state := by
  refine ⟨?_, ?_, ?_, ?_⟩
  · intro h
    simp [Read, h]
  · intro e h
    simp [Read, Stub.GetState, h]
  · intro h
    simp [Read, Stub.GetState, h]
  · rcases h : stub.fault stub.log.length with _ | e <;> simp [Read, Stub.GetState, h]

set_option maxRecDepth 100000 in
/-- C9, evaluated on the code. After `Init(["100"])`, on a ledger where the last
`PutState` of the following `Init_journal` fails (the sixth call to the ledger), the
call passes validation and the duplicate check, writes the record, reads the index,
attempts the index write, which fails, and still returns success: the error is not
reported. The record is written and the index is not updated. -/
theorem Init_journal_drops_index_write_error :
    indexWriteFails.fault 5 = some "ledger down" ∧
    (Init_journal indexWriteFails aliceArgs).2.log
      = [Op.put "abc" "100", Op.put "_journalindex" "null", Op.get "1234567890",
         Op.put "1234567890" aliceRecord, Op.get "_journalindex",
         Op.put "_journalindex" "[\"1234567890\"]"] ∧
    (Init_journal indexWriteFails aliceArgs).1 = Except.ok "" ∧
    (Init_journal indexWriteFails aliceArgs).1 ≠ Except.error (Err.ledger "ledger down") ∧
    (Init_journal indexWriteFails aliceArgs).2.state "1234567890" = some aliceRecord ∧
    (Init_journal indexWriteFails aliceArgs).2.state "_journalindex" = some "null" := by
  decide

/-- C10. For every function name, argument list and stub: `Invoke` runs `Init` for
`init` (which ignores the function name it is given), `Write` for `write`,
`Init_journal` for `init_journal`, and for any other name fails with "Received
unknown function invocation" and leaves the stub as it was; `Query` runs `Read` for
`read`, and for any other name fails with "Received unknown function query" and
leaves the stub as it was. -/
theorem Invoke_Query_dispatch (stub : Stub) (function g : String) (args : List String) :
    Invoke stub "init" args = Init stub g args ∧
    Invoke stub "write" args = Write stub args ∧
    Invoke stub "init_journal" args = Init_journal stub args ∧
    (function ≠ "init" ∧ function ≠ "write" ∧ function ≠ "init_journal" →
      Invoke stub function args
        = (Except.error (Err.new "Received unknown function invocation"), stub)) ∧
    Query stub "read" args = Read stub args ∧
    (function ≠ "read" →
      Query stub function args
        = (Except.error (Err.new "Received unknown function query"), stub)) := by
  refine ⟨?_, ?_, ?_, ?_, ?_, ?_⟩
  · simp [Invoke, Init]
  · simp [Invoke]
  · simp [Invoke]
  · rintro ⟨h1, h2, h3⟩
    simp [Invoke, h1, h2, h3]
  · simp [Query]
  · intro h
    simp [Query, h]

set_option maxRecDepth 100000 in
/-- C11 as stated fails: after `Init(["100"])`, on a ledger where the record write of
the following `Init_journal` fails, a call with `cpr = "_journalindex"` passes
validation and the duplicate check, and the two calls it makes to the ledger are a
read of `_journalindex` and the failed write to `_journalindex`. -/
theorem record_write_failure_touches_index_key :
    (Init_journal (Init (failingAt 3) "init" ["100"]).2 indexArgs).1
      = Except.error (Err.ledger "ledger down") ∧
    callsBetween (Init (failingAt 3) "init" ["100"]).2
        (Init_journal (Init (failingAt 3) "init" ["100"]).2 indexArgs).2
      = [Op.get "_journalindex",
         Op.put "_journalindex"
           (strJson "Eve" "_journalindex" "open" "active" "2024-01-03T00:00:00Z")] := by
  decide

/-- C11, amended. For every `Init_journal` call that passes validation and the
duplicate check: if the `PutState` of the record under `cpr` fails with `e`, the call
returns `e`, its only calls to the ledger are the read of `cpr` and that failed
write, and the ledger, the value under `_journalindex` included, is the same as
before; so when `cpr` is not `_journalindex` it neither reads nor writes
`_journalindex`. -/
theorem Init_journal_record_write_fails (stub : Stub)
    (name cpr status state timestamp e : String)
    (hname : name ≠ "") (hcpr : cpr ≠ "") (hstatus : status ≠ "") (hstate : state ≠ "")
    (htimestamp : timestamp ≠ "")
    (h0 : stub.fault stub.log.length = none)
    (hnew : (jsonUnmarshalJournal ((stub.state cpr).getD "") Journal.zero).CPR ≠ cpr)
    (h1 : stub.fault (stub.log.length + 1) = some e) :
    (Init_journal stub [name, cpr, status, state, timestamp]).1 = Except.error (Err.ledger e) ∧
    callsBetween stub (Init_journal stub [name, cpr, status, state, timestamp]).2
      = [Op.get cpr, Op.put cpr (strJson name cpr status state timestamp)] ∧
    (Init_journal stub [name, cpr, status, state, timestamp]).2.state = stub.state ∧
    (cpr ≠ journalIndexStr →
      ∀ op ∈ callsBetween stub (Init_journal stub [name, cpr, status, state, timestamp]).2,
        op.key ≠ journalIndexStr) := by
  have hrun : Init_journal stub [name, cpr, status, state, timestamp]
      = (Except.error (Err.ledger e),
         { state := stub.state, fault := stub.fault,
           log := stub.log ++ [Op.get cpr, Op.put cpr (strJson name cpr status state timestamp)] })
      := by
    simp [Init_journal, hname, hcpr, hstatus, hstate, htimestamp, Stub.GetState, Stub.PutState,
      h0, h1, hnew]
  rw [hrun]
  refine ⟨rfl, callsBetween_append _ _ _ _, rfl, ?_⟩
  intro hkey op hop
  rw [callsBetween_append] at hop
  simp only [List.mem_cons, List.mem_singleton, List.not_mem_nil, or_false] at hop
  rcases hop with rfl | rfl <;> exact hkey

set_option maxRecDepth 100000 in
/-- C11, amended, at the scenario's arguments after `Init(["100"])`, with the record
write failing. -/
theorem Init_journal_record_write_fails_witness :
    (Init_journal (Init (failingAt 3) "init" ["100"]).2 aliceArgs).1
      = Except.error (Err.ledger "ledger down") ∧
    callsBetween (Init (failingAt 3) "init" ["100"]).2
        (Init_journal (Init (failingAt 3) "init" ["100"]).2 aliceArgs).2
      = [Op.get "1234567890", Op.put "1234567890" aliceRecord] ∧
    (Init_journal (Init (failingAt 3) "init" ["100"]).2 aliceArgs).2.state
      = (Init (failingAt 3) "init" ["100"]).2.state ∧
    ("1234567890" ≠ journalIndexStr →
      ∀ op ∈ callsBetween (Init (failingAt 3) "init" ["100"]).2
          (Init_journal (Init (failingAt 3) "init" ["100"]).2 aliceArgs).2,
        op.key ≠ journalIndexStr) :=
  Init_journal_record_write_fails (Init (failingAt 3) "init" ["100"]).2
    "Alice" "1234567890" "open" "active" "2024-01-01T00:00:00Z" "ledger down"
    (by decide) (by decide) (by decide) (by decide) (by decide) (by decide) (by decide)
    (by decide)

set_option maxRecDepth 100000 in
/-- C12 as stated fails: after `Init(["100"])`, on a ledger where the index read of
the following `Init_journal` fails, a call with `cpr = "_journalindex"` writes its
record, fails with "Failed to get journal index", and the value under
`_journalindex` is no longer the `null` it was before the call but the record. -/
theorem index_read_failure_changes_index_key :
    (Init (failingAt 4) "init" ["100"]).2.state "_journalindex" = some "null" ∧
    (Init_journal (Init (failingAt 4) "init" ["100"]).2 indexArgs).1
      = Except.error (Err.new "Failed to get journal index") ∧
    (Init_journal (Init (failingAt 4) "init" ["100"]).2 indexArgs).2.state "_journalindex"
      = some (strJson "Eve" "_journalindex" "open" "active" "2024-01-03T00:00:00Z") ∧
    (Init_journal (Init (failingAt 4) "init" ["100"]).2 indexArgs).2.state "_journalindex"
      ≠ (Init (failingAt 4) "init" ["100"]).2.state "_journalindex" := by
  decide

/-- C12, amended. For every `Init_journal` call with `cpr` different from
`_journalindex` whose record write succeeded: if the `GetState` on `_journalindex`
fails, the call fails with "Failed to get journal index", the ledger holds the newly
written record under `cpr`, and the value under `_journalindex` is the same as before
the call. -/
theorem Init_journal_index_read_fails (stub : Stub)
    (name cpr status state timestamp e : String)
    (hname : name ≠ "") (hcpr : cpr ≠ "") (hstatus : status ≠ "") (hstate : state ≠ "")
    (htimestamp : timestamp ≠ "")
    (h0 : stub.fault stub.log.length = none)
    (hnew : (jsonUnmarshalJournal ((stub.state cpr).getD "") Journal.zero).CPR ≠ cpr)
    (h1 : stub.fault (stub.log.length + 1) = none)
    (h2 : stub.fault (stub.log.length + 2) = some e)
    (hkey : cpr ≠ journalIndexStr) :
    (Init_journal stub [name, cpr, status, state, timestamp]).1
      = Except.error (Err.new "Failed to get journal index") ∧
    (Init_journal stub [name, cpr, status, state, timestamp]).2.state cpr
      = some (strJson name cpr status state timestamp) ∧
    (Init_journal stub [name, cpr, status, state, timestamp]).2.state journalIndexStr
      = stub.state journalIndexStr := by
  have hkey2 : ¬ journalIndexStr = cpr := fun h => hkey h.symm
  simp [Init_journal, hname, hcpr, hstatus, hstate, htimestamp, Stub.GetState, Stub.PutState,
    h0, h1, h2, hnew, hkey2]

set_option maxRecDepth 100000 in
/-- C12, amended, at the scenario's arguments after `Init(["100"])`, with the index
read failing. -/
theorem Init_journal_index_read_fails_witness :
    (Init_journal (Init (failingAt 4) "init" ["100"]).2 aliceArgs).1
      = Except.error (Err.new "Failed to get journal index") ∧
    (Init_journal (Init (failingAt 4) "init" ["100"]).2 aliceArgs).2.state "1234567890"
      = some aliceRecord ∧
    (Init_journal (Init (failingAt 4) "init" ["100"]).2 aliceArgs).2.state journalIndexStr
      = (Init (failingAt 4) "init" ["100"]).2.state journalIndexStr :=
  Init_journal_index_read_fails (Init (failingAt 4) "init" ["100"]).2
    "Alice" "1234567890" "open" "active" "2024-01-01T00:00:00Z" "ledger down"
    (by decide) (by decide) (by decide) (by decide) (by decide) (by decide) (by decide)
    (by decide) (by decide) (by decide)

set_option maxRecDepth 100000 in
/-- C13 as stated fails: on a ledger that holds, under `1234567890`, a record that
deserializes to a `Journal` with that `cpr_nr`, and whose next read fails,
`Init_journal` for `1234567890` fails with "Failed to get cpr-nr", not with "This
cpr-nr arleady exists". -/
theorem duplicate_gate_behind_failed_read :
    (jsonUnmarshalJournal ((quotedStubDown.state "1234567890").getD "") Journal.zero).CPR
      = "1234567890" ∧
    (Init_journal quotedStubDown quotedArgs).1 = Except.error (Err.new "Failed to get cpr-nr") ∧
    (Init_journal quotedStubDown quotedArgs).1
      ≠ Except.error (Err.new "This cpr-nr arleady exists") := by
  decide

/-- C13, amended. For every ledger and five non-empty arguments, when the ledger read
of `cpr` does not fail: if the bytes stored under `cpr` deserialize to a `Journal`
whose `cpr_nr` equals the requested `cpr`, `Init_journal` fails with "This cpr-nr
arleady exists", its only call to the ledger is that read, and the ledger is
unchanged; stored bytes that are empty or not valid JSON leave `cpr_nr` empty; and
whenever `cpr_nr` stays empty (empty bytes, text that is not valid JSON, or valid
JSON that is no journal, such as a number, an array or a string), and more generally
whenever it differs from `cpr`, the check does not fire and the next call to the
ledger is the `PutState` of the record under `cpr`. -/
theorem Init_journal_duplicate_gate (stub : Stub)
    (name cpr status state timestamp : String)
    (hname : name ≠ "") (hcpr : cpr ≠ "") (hstatus : status ≠ "") (hstate : state ≠ "")
    (htimestamp : timestamp ≠ "")
    (h0 : stub.fault stub.log.length = none) :
    ((jsonUnmarshalJournal ((stub.state cpr).getD "") Journal.zero).CPR = cpr →
      (Init_journal stub [name, cpr, status, state, timestamp]).1
        = Except.error (Err.new "This cpr-nr arleady exists") ∧
      callsBetween stub (Init_journal stub [name, cpr, status, state, timestamp]).2
        = [Op.get cpr] ∧
      (Init_journal stub [name, cpr, status, state, timestamp]).2.state = stub.state) ∧
    (((stub.state cpr).getD "" = "" ∨ parseJSON ((stub.state cpr).getD "").data = none) →
      (jsonUnmarshalJournal ((stub.state cpr).getD "") Journal.zero).CPR = "") ∧
    ((jsonUnmarshalJournal ((stub.state cpr).getD "") Journal.zero).CPR = "" →
      (Init_journal stub [name, cpr, status, state, timestamp]).1
        ≠ Except.error (Err.new "This cpr-nr arleady exists") ∧
      (callsBetween stub (Init_journal stub [name, cpr, status, state, timestamp]).2).take 2
        = [Op.get cpr, Op.put cpr (strJson name cpr status state timestamp)]) ∧
    ((jsonUnmarshalJournal ((stub.state cpr).getD "") Journal.zero).CPR ≠ cpr →
      (Init_journal stub [name, cpr, status, state, timestamp]).1
        ≠ Except.error (Err.new "This cpr-nr arleady exists") ∧
      (callsBetween stub (Init_journal stub [name, cpr, status, state, timestamp]).2).take 2
        = [Op.get cpr, Op.put cpr (strJson name cpr status state timestamp)]) := by
  have hgo : (jsonUnmarshalJournal ((stub.state cpr).getD "") Journal.zero).CPR ≠ cpr →
      (Init_journal stub [name, cpr, status, state, timestamp]).1
        ≠ Except.error (Err.new "This cpr-nr arleady exists") ∧
      (callsBetween stub (Init_journal stub [name, cpr, status, state, timestamp]).2).take 2
        = [Op.get cpr, Op.put cpr (strJson name cpr status state timestamp)] := by
    intro hnew
    constructor
    · rcases h1 : stub.fault (stub.log.length + 1) with _ | e1
      · rcases h2 : stub.fault (stub.log.length + 2) with _ | e2
        · simp [Init_journal, hname, hcpr, hstatus, hstate, htimestamp, Stub.GetState,
            Stub.PutState, h0, h1, h2, hnew]
        · simp [Init_journal, hname, hcpr, hstatus, hstate, htimestamp, Stub.GetState,
            Stub.PutState, h0, h1, h2, hnew]
      · simp [Init_journal, hname, hcpr, hstatus, hstate, htimestamp, Stub.GetState,
          Stub.PutState, h0, h1, hnew]
    · rcases h1 : stub.fault (stub.log.length + 1) with _ | e1
      · rcases h2 : stub.fault (stub.log.length + 2) with _ | e2
        · rcases h3 : stub.fault (stub.log.length + 3) with _ | e3 <;>
            simp [Init_journal, hname, hcpr, hstatus, hstate, htimestamp, Stub.GetState,
              Stub.PutState, h0, h1, h2, h3, hnew, callsBetween]
        · simp [Init_journal, hname, hcpr, hstatus, hstate, htimestamp, Stub.GetState,
            Stub.PutState, h0, h1, h2, hnew, callsBetween]
      · simp [Init_journal, hname, hcpr, hstatus, hstate, htimestamp, Stub.GetState,
          Stub.PutState, h0, h1, hnew, callsBetween]
  refine ⟨?_, ?_, ?_, hgo⟩
  · intro hdup
    have hrun : Init_journal stub [name, cpr, status, state, timestamp]
        = (Except.error (Err.new "This cpr-nr arleady exists"),
           { state := stub.state, fault := stub.fault, log := stub.log ++ [Op.get cpr] }) := by
      simp [Init_journal, hname, hcpr, hstatus, hstate, htimestamp, Stub.GetState, h0, hdup]
    rw [hrun]
    exact ⟨rfl, callsBetween_append _ _ _ _, rfl⟩
  · intro hbad
    have hparse : parseJSON ((stub.state cpr).getD "").data = none := by
      rcases hbad with h | h
      · rw [h]; exact parseJSON_empty
      · exact h
    rw [jsonUnmarshalJournal_of_invalid _ _ hparse]
    rfl
  · intro hempty
    exact hgo (fun h => hcpr (by rw [← h, hempty]))

set_option maxRecDepth 100000 in
/-- C13, amended, on two ledgers. On the ledger that holds a well-formed record under
`1234567890`, a second call for that `cpr` is rejected as a duplicate after its one
read. After `Init(["100"])`, the key `abc` holds `100`, valid JSON that is no
journal: `cpr_nr` stays empty, and a call for the `cpr` `abc` is not rejected and
goes on to write its record over the counter. -/
theorem Init_journal_duplicate_gate_witness :
    ((Init_journal quotedStub quotedArgs).1
      = Except.error (Err.new "This cpr-nr arleady exists") ∧
    callsBetween quotedStub (Init_journal quotedStub quotedArgs).2 = [Op.get "1234567890"] ∧
    (Init_journal quotedStub quotedArgs).2.state = quotedStub.state) ∧
    bootStub.state "abc" = some "100" ∧
    ((Init_journal bootStub ["Alice", "abc", "open", "active", "2024-01-01T00:00:00Z"]).1
      ≠ Except.error (Err.new "This cpr-nr arleady exists") ∧
    (callsBetween bootStub
        (Init_journal bootStub ["Alice", "abc", "open", "active", "2024-01-01T00:00:00Z"]).2).take 2
      = [Op.get "abc",
         Op.put "abc" (strJson "Alice" "abc" "open" "active" "2024-01-01T00:00:00Z")]) :=
  ⟨(Init_journal_duplicate_gate quotedStub "Alice" "1234567890" "\"open\"" "active\""
      "2024-01-01T00:00:00Z" (by decide) (by decide) (by decide) (by decide) (by decide)
      (by decide)).1 (by decide),
   by decide,
   (Init_journal_duplicate_gate bootStub "Alice" "abc" "open" "active"
      "2024-01-01T00:00:00Z" (by decide) (by decide) (by decide) (by decide) (by decide)
      (by decide)).2.2.1 (by decide)⟩

set_option maxRecDepth 100000 in
/-- C14, evaluated on the code. After `Init(["100"])` and a first journal, on a
ledger where the last `PutState` of the second `Init_journal` fails (the tenth call
to the ledger), the second call, for the `cpr` `0987654321`, returns success, and
the index deserializes to `["1234567890"]` before the call and still to
`["1234567890"]` after it, not to `["1234567890", "0987654321"]`. -/
theorem successful_create_without_append :
    indexOf (Init_journal (Init (failingAt 9) "init" ["100"]).2 aliceArgs).2
      = ["1234567890"] ∧
    succeeded (Init_journal (Init_journal (Init (failingAt 9) "init" ["100"]).2 aliceArgs).2
      bobArgs) = true ∧
    cprOf bobArgs ≠ journalIndexStr ∧
    indexOf (Init_journal (Init_journal (Init (failingAt 9) "init" ["100"]).2 aliceArgs).2
      bobArgs).2 = ["1234567890"] ∧
    indexOf (Init_journal (Init_journal (Init (failingAt 9) "init" ["100"]).2 aliceArgs).2
      bobArgs).2 ≠ ["1234567890"] ++ [cprOf bobArgs] := by
  decide

/-- C15. In `Init` with an argument that `Atoi` accepts as `n`: the first call to the
ledger is the `PutState` of the decimal form of `n` under `abc`; if it fails with
`e`, `Init` returns `e`, makes no other call (no write to `_journalindex` is
attempted) and the ledger is as before; if it succeeds and the `PutState` of the
index fails with `e`, `Init` returns `e`, the counter is under `abc`, and the value
under `_journalindex` is as before. -/
theorem Init_write_order (stub : Stub) (function s : String) (n : Int)
    (hs : Atoi s = some n) :
    (∀ e, stub.fault stub.log.length = some e →
      (Init stub function [s]).1 = Except.error (Err.ledger e) ∧
      callsBetween stub (Init stub function [s]).2 = [Op.put "abc" (Itoa n)] ∧
      (Init stub function [s]).2.state = stub.state) ∧
    (∀ e, stub.fault stub.log.length = none → stub.fault (stub.log.length + 1) = some e →
      (Init stub function [s]).1 = Except.error (Err.ledger e) ∧
      callsBetween stub (Init stub function [s]).2
        = [Op.put "abc" (Itoa n), Op.put journalIndexStr "null"] ∧
      (Init stub function [s]).2.state "abc" = some (Itoa n) ∧
      (Init stub function [s]).2.state journalIndexStr = stub.state journalIndexStr) ∧
    (stub.fault stub.log.length = none → stub.fault (stub.log.length + 1) = none →
      (Init stub function [s]).1 = Except.ok "" ∧
      callsBetween stub (Init stub function [s]).2
        = [Op.put "abc" (Itoa n), Op.put journalIndexStr "null"]) := by
  refine ⟨?_, ?_, ?_⟩
  · intro e h0
    simp [Init, hs, Stub.PutState, h0, callsBetween]
  · intro e h0 h1
    simp [Init, hs, Stub.PutState, h0, h1, callsBetween, jsonMarshalStrings, journalIndexStr]
  · intro h0 h1
    simp [Init, hs, Stub.PutState, h0, h1, callsBetween, jsonMarshalStrings]

set_option maxRecDepth 100000 in
/-- C15 at `Init(["100"])` on an empty ledger where the second call to the ledger
fails: the error is returned, the counter is under `abc`, and the index key has no
value, as before. -/
theorem Init_write_order_witness :
    (Init (failingAt 1) "init" ["100"]).1 = Except.error (Err.ledger "ledger down") ∧
    callsBetween (failingAt 1) (Init (failingAt 1) "init" ["100"]).2
      = [Op.put "abc" (Itoa 100), Op.put journalIndexStr "null"] ∧
    (Init (failingAt 1) "init" ["100"]).2.state "abc" = some (Itoa 100) ∧
    (Init (failingAt 1) "init" ["100"]).2.state journalIndexStr
      = (failingAt 1).state journalIndexStr :=
  (Init_write_order (failingAt 1) "init" "100" 100 (by decide)).2.1 "ledger down"
    (by decide) (by decide)

/-- C16. `Write` with an argument count other than 2 fails and leaves the stub as it
was. For every ledger, every `k` and every `v`, with no condition on `k`:
`Write([k, v])` makes exactly one call to the ledger, the `PutState` of `v` under
`k`; it succeeds exactly when that call does not fail; when it succeeds `v` is under
`k`, verbatim, and every other key is as it was; when the call fails with `e`,
`Write` returns `e` and the ledger is as it was. -/
theorem Write_frame (stub : Stub) (args : List String) (k v : String) :
    (args.length ≠ 2 →
      Write stub args
        = (Except.error (Err.new
            "Incorrect number of arguments. Expecting 2. name of the variable and value to set"),
           stub)) ∧
    callsBetween stub (Write stub [k, v]).2 = [Op.put k v] ∧
    (succeeded (Write stub [k, v]) = true ↔ stub.fault stub.log.length = none) ∧
    (stub.fault stub.log.length = none →
      (Write stub [k, v]).1 = Except.ok "" ∧
      (Write stub [k, v]).2.state k = some v ∧
      (∀ k2, k2 ≠ k → (Write stub [k, v]).2.state k2 = stub.state k2)) ∧
    (∀ e, stub.fault stub.log.length = some e →
      (Write stub [k, v]).1 = Except.error (Err.ledger e) ∧
      (Write stub [k, v]).2.state = stub.state) ∧
    (succeeded (Write stub [k, v]) = true →
      (Write stub [k, v]).2.state k = some v ∧
      (∀ k2, k2 ≠ k → (Write stub [k, v]).2.state k2 = stub.state k2) ∧
      callsBetween stub (Write stub [k, v]).2 = [Op.put k v]) := by
  refine ⟨?_, ?_, ?_, ?_, ?_, ?_⟩
  · intro h
    simp [Write, h]
  · rcases h0 : stub.fault stub.log.length with _ | e0 <;>
      simp [Write, Stub.PutState, h0, callsBetween]
  · rcases h0 : stub.fault stub.log.length with _ | e0 <;>
      simp [Write, Stub.PutState, h0, succeeded]
  · intro h0
    refine ⟨by simp [Write, Stub.PutState, h0], by simp [Write, Stub.PutState, h0], ?_⟩
    intro k2 hk2
    simp [Write, Stub.PutState, h0, hk2]
  · intro e h0
    simp [Write, Stub.PutState, h0]
  · intro hok
    rcases h0 : stub.fault stub.log.length with _ | e0
    · refine ⟨by simp [Write, Stub.PutState, h0], ?_,
        by simp [Write, Stub.PutState, h0, callsBetween]⟩
      intro k2 hk2
      simp [Write, Stub.PutState, h0, hk2]
    · simp [Write, Stub.PutState, h0, succeeded] at hok

set_option maxRecDepth 100000 in
/-- C16 on the ledger that holds the scenario's journal and an index listing it: a
`Write` to `_journalindex` succeeds and replaces the index by the bytes given, which
do not deserialize to any entry, and a `Write` to the journal's `cpr` succeeds and
replaces the record. -/
theorem Write_frame_witness :
    aliceStub.state "_journalindex" = some "[\"1234567890\"]" ∧
    ((Write aliceStub ["_journalindex", "gone"]).1 = Except.ok "" ∧
      (Write aliceStub ["_journalindex", "gone"]).2.state "_journalindex" = some "gone" ∧
      (∀ k2, k2 ≠ "_journalindex" →
        (Write aliceStub ["_journalindex", "gone"]).2.state k2 = aliceStub.state k2)) ∧
    indexOf (Write aliceStub ["_journalindex", "gone"]).2 = [] ∧
    aliceStub.state "1234567890" = some aliceRecord ∧
    ((Write aliceStub ["1234567890", "gone"]).1 = Except.ok "" ∧
      (Write aliceStub ["1234567890", "gone"]).2.state "1234567890" = some "gone" ∧
      (∀ k2, k2 ≠ "1234567890" →
        (Write aliceStub ["1234567890", "gone"]).2.state k2 = aliceStub.state k2)) :=
  ⟨by decide,
   (Write_frame aliceStub [] "_journalindex" "gone").2.2.2.1 (by decide),
   by decide,
   by decide,
   (Write_frame aliceStub [] "1234567890" "gone").2.2.2.1 (by decide)⟩

/-- C17. For every argument `s` that `Atoi` accepts as `n`: after a successful
`Init([s])` the value under `abc` is the decimal form `Itoa n`, which is the
canonical decimal rendering of `n` (that of `toString` on the integers), and `Atoi`
reads it back as `n`. -/
theorem Init_stores_canonical_decimal (stub : Stub) (function s : String) (n : Int)
    (hs : Atoi s = some n) (hok : succeeded (Init stub function [s]) = true) :
    (Init stub function [s]).2.state "abc" = some (Itoa n) ∧
    Itoa n = toString n ∧
    Atoi (Itoa n) = some n := by
  obtain ⟨hlo, hhi⟩ := Atoi_range s n hs
  refine ⟨?_, Itoa_eq_toString n, Atoi_Itoa n hlo hhi⟩
  rcases h0 : stub.fault stub.log.length with _ | e0
  · rcases h1 : stub.fault (stub.log.length + 1) with _ | e1
    · simp [Init, hs, Stub.PutState, h0, h1, journalIndexStr]
    · simp [Init, hs, Stub.PutState, h0, h1, succeeded] at hok
  · simp [Init, hs, Stub.PutState, h0, succeeded] at hok

set_option maxRecDepth 100000 in
/-- C17 at the arguments `+7`, `007` and `-0` on the empty ledger: stored as `7`,
`7` and `0`. -/
theorem Init_stores_canonical_decimal_witness :
    (Init emptyStub "init" ["+7"]).2.state "abc" = some "7" ∧
    (Init emptyStub "init" ["007"]).2.state "abc" = some "7" ∧
    (Init emptyStub "init" ["-0"]).2.state "abc" = some "0" :=
  ⟨(Init_stores_canonical_decimal emptyStub "init" "+7" 7 (by decide) (by decide)).1,
   (Init_stores_canonical_decimal emptyStub "init" "007" 7 (by decide) (by decide)).1,
   (Init_stores_canonical_decimal emptyStub "init" "-0" 0 (by decide) (by decide)).1⟩

/-- C18. For every function name, argument list and stub, `Query` leaves the ledger
as it was, and the only call to the ledger it can make is one `GetState`. -/
theorem Query_read_only (stub : Stub) (function : String) (args : List String) :
    (Query stub function args).2.state = stub.state ∧
    (Query stub function args).2.fault = stub.fault ∧
    (∀ op ∈ callsBetween stub (Query stub function args).2, op.isPut = false) ∧
    (callsBetween stub (Query stub function args).2).length ≤ 1 := by
  by_cases hf : function = "read"
  · by_cases hlen : args.length = 1
    · obtain ⟨a, rfl⟩ := length_one args hlen
      rcases h0 : stub.fault stub.log.length with _ | e0 <;>
        simp [Query, hf, Read, Stub.GetState, h0, callsBetween, Op.isPut]
    · simp [Query, hf, Read, hlen, callsBetween]
  · simp [Query, hf, callsBetween]

set_option maxRecDepth 100000 in
/-- C19 as stated fails: on a ledger that was never bootstrapped and where the last
`PutState` of `Init_journal` fails, the call reaches the index step with no value
under `_journalindex` and returns success, but the index afterwards is still
without a value and does not deserialize to `["1234567890"]`. -/
theorem undecodable_index_not_replaced_on_failed_write :
    (failingAt 3).state journalIndexStr = none ∧
    (callsBetween (failingAt 3) (Init_journal (failingAt 3) aliceArgs).2).length = 4 ∧
    (Init_journal (failingAt 3) aliceArgs).1 = Except.ok "" ∧
    (Init_journal (failingAt 3) aliceArgs).2.state journalIndexStr = none ∧
    indexOf (Init_journal (failingAt 3) aliceArgs).2 ≠ ["1234567890"] := by
  decide

/-- C19, amended. For every `Init_journal` call that reaches the index step (five
non-empty arguments, the read of `cpr`, the record write and the index read do not
fail, no duplicate is found) while the value under `_journalindex` is empty or not
valid JSON, and whose last `PutState` does not fail: the call returns success and
the value under `_journalindex` afterwards is the serialization of `[cpr]` alone,
which deserializes to exactly `[cpr]`. -/
theorem Init_journal_replaces_undecodable_index (stub : Stub)
    (name cpr status state timestamp : String)
    (hname : name ≠ "") (hcpr : cpr ≠ "") (hstatus : status ≠ "") (hstate : state ≠ "")
    (htimestamp : timestamp ≠ "")
    (h0 : stub.fault stub.log.length = none)
    (hnew : (jsonUnmarshalJournal ((stub.state cpr).getD "") Journal.zero).CPR ≠ cpr)
    (h1 : stub.fault (stub.log.length + 1) = none)
    (h2 : stub.fault (stub.log.length + 2) = none)
    (hbad : ((stub.PutState cpr (strJson name cpr status state timestamp)).2.state
          journalIndexStr).getD "" = "" ∨
        parseJSON (((stub.PutState cpr (strJson name cpr status state timestamp)).2.state
          journalIndexStr).getD "").data = none)
    (h3 : stub.fault (stub.log.length + 3) = none) :
    (Init_journal stub [name, cpr, status, state, timestamp]).1 = Except.ok "" ∧
    (Init_journal stub [name, cpr, status, state, timestamp]).2.state journalIndexStr
      = some (jsonMarshalStrings (some [cpr])) ∧
    indexOf (Init_journal stub [name, cpr, status, state, timestamp]).2 = [cpr] := by
  have hparse : parseJSON (((stub.PutState cpr (strJson name cpr status state timestamp)).2.state
      journalIndexStr).getD "").data = none := by
    rcases hbad with h | h
    · rw [h]; exact parseJSON_empty
    · exact h
  have hnil := jsonUnmarshalStrings_of_invalid _ hparse
  simp only [Stub.PutState, h0] at hnil
  simp [Init_journal, hname, hcpr, hstatus, hstate, htimestamp, Stub.GetState, Stub.PutState,
    h0, h1, h2, h3, hnew, hnil, appendString, indexOf, jsonUnmarshalStrings_jsonMarshalStrings]

set_option maxRecDepth 100000 in
/-- C19, amended, at the scenario's arguments on the empty ledger, which was never
bootstrapped. -/
theorem Init_journal_replaces_undecodable_index_witness :
    (Init_journal emptyStub aliceArgs).1 = Except.ok "" ∧
    (Init_journal emptyStub aliceArgs).2.state journalIndexStr
      = some (jsonMarshalStrings (some ["1234567890"])) ∧
    indexOf (Init_journal emptyStub aliceArgs).2 = ["1234567890"] :=
  Init_journal_replaces_undecodable_index emptyStub "Alice" "1234567890" "open" "active"
    "2024-01-01T00:00:00Z" (by decide) (by decide) (by decide) (by decide) (by decide)
    (by decide) (by decide) (by decide) (by decide) (Or.inl (by decide)) (by decide)

set_option maxRecDepth 100000 in
/-- C20 as stated fails: on a ledger without failures where a `Write` has put a
journal whose `cpr_nr` is `_journalindex` under the index key, `Init_journal` with
`cpr = "_journalindex"` and non-empty other arguments does not succeed: it fails
with "This cpr-nr arleady exists" and the value under `_journalindex` stays what it
was, not the serialization of `["_journalindex"]`. -/
theorem index_key_create_rejected_as_duplicate :
    indexHoldsJournal.faultFree ∧
    cprOf indexArgs = journalIndexStr ∧
    (∀ a ∈ indexArgs, a ≠ "") ∧
    (Init_journal indexHoldsJournal indexArgs).1
      = Except.error (Err.new "This cpr-nr arleady exists") ∧
    succeeded (Init_journal indexHoldsJournal indexArgs) = false ∧
    (Init_journal indexHoldsJournal indexArgs).2.state journalIndexStr
      = some "\x7b\"cpr_nr\": \"_journalindex\"\x7d" ∧
    (Init_journal indexHoldsJournal indexArgs).2.state journalIndexStr
      ≠ some (jsonMarshalStrings (some [journalIndexStr])) := by
  refine ⟨fun _ => rfl, ?_⟩
  decide

/-- C20, amended. For every ledger whose calls never fail and every non-empty name,
status, state and timestamp: unless the value under `_journalindex` deserializes to
a `Journal` whose `cpr_nr` is `_journalindex` itself, `Init_journal` with
`cpr = "_journalindex"` succeeds and leaves under `_journalindex` exactly
`["_journalindex"]`, the serialization of the one-element sequence, which
deserializes to that one entry: what the index listed before is lost. -/
theorem Init_journal_on_index_key (stub : Stub) (name status state timestamp : String)
    (hname : name ≠ "") (hstatus : status ≠ "") (hstate : state ≠ "")
    (htimestamp : timestamp ≠ "") (hff : stub.faultFree)
    (hnew : (jsonUnmarshalJournal ((stub.state journalIndexStr).getD "") Journal.zero).CPR
      ≠ journalIndexStr) :
    (Init_journal stub [name, journalIndexStr, status, state, timestamp]).1 = Except.ok "" ∧
    (Init_journal stub [name, journalIndexStr, status, state, timestamp]).2.state journalIndexStr
      = some "[\"_journalindex\"]" ∧
    jsonMarshalStrings (some [journalIndexStr]) = "[\"_journalindex\"]" ∧
    indexOf (Init_journal stub [name, journalIndexStr, status, state, timestamp]).2
      = [journalIndexStr] := by
  have hf : ∀ n, stub.fault n = none := hff
  have hidx : journalIndexStr ≠ "" := by decide
  have hm : jsonMarshalStrings (some [journalIndexStr]) = "[\"_journalindex\"]" := by decide
  have hrun : Init_journal stub [name, journalIndexStr, status, state, timestamp]
      = (Except.ok "",
         { state := fun k => if k = journalIndexStr
             then some (jsonMarshalStrings (some [journalIndexStr]))
             else stub.state k,
           fault := stub.fault,
           log := stub.log ++ [Op.get journalIndexStr,
             Op.put journalIndexStr (strJson name journalIndexStr status state timestamp),
             Op.get journalIndexStr,
             Op.put journalIndexStr (jsonMarshalStrings (some [journalIndexStr]))] }) := by
    simp [Init_journal, hname, hidx, hstatus, hstate, htimestamp, Stub.GetState, Stub.PutState,
      hf, hnew, jsonUnmarshalStrings_strJson, appendString]
    funext k
    by_cases hk : k = journalIndexStr <;> simp [hk]
  rw [hrun]
  refine ⟨rfl, by simp [hm], hm, ?_⟩
  simp [indexOf, jsonUnmarshalStrings_jsonMarshalStrings]

set_option maxRecDepth 100000 in
/-- C20, amended, after `Init(["100"])` and the scenario's journal: the index that
listed `1234567890` lists `_journalindex` alone. -/
theorem Init_journal_on_index_key_witness :
    indexOf aliceStub = ["1234567890"] ∧
    (Init_journal aliceStub ["Eve", journalIndexStr, "open", "active",
      "2024-01-03T00:00:00Z"]).1 = Except.ok "" ∧
    (Init_journal aliceStub ["Eve", journalIndexStr, "open", "active",
      "2024-01-03T00:00:00Z"]).2.state journalIndexStr = some "[\"_journalindex\"]" ∧
    jsonMarshalStrings (some [journalIndexStr]) = "[\"_journalindex\"]" ∧
    indexOf (Init_journal aliceStub ["Eve", journalIndexStr, "open", "active",
      "2024-01-03T00:00:00Z"]).2 = [journalIndexStr] :=
  ⟨by decide, Init_journal_on_index_key aliceStub "Eve" "open" "active" "2024-01-03T00:00:00Z"
    (by decide) (by decide) (by decide) (by decide) (fun _ => rfl) (by decide)⟩

end Chaincode
